import Mathlib

/-!
Shallow embedding of `src/hamming3126.py`, a Hamming(31,26) file
encoder/decoder, together with proofs of the specification claims.

Modelling conventions:
* Python byte strings are `List Nat` with entries below 256; bits are `Nat`
  values produced by `&&& 1`.
* The 1-based 32-slot word `palavra_bits` (index 0 discarded) is a
  `List Nat` of length 32; Python `palavra[i]` reads become `List.getD` and
  assignments become `List.set`.
* Python exceptions (`ValueError` from `int(c)` and from the length check,
  `OverflowError` from `int.to_bytes`) are modelled with `Except String`;
  file writes in `codificar_arquivo`/`decodificar_arquivo` happen after all
  processing, so the `Except` value carries the only observable output.
* The encoded file text is `' '.join(palavras)`; we work with the list of
  whitespace-delimited tokens directly (`List (List Char)`), which is what
  `read_text().split()` recovers on the decode side.
* `str(b)` for a one-digit number is `Nat.digitChar b`; `int(c)` on a
  single character succeeds exactly on Unicode decimal digit characters
  (category Nd) and returns the digit value, so the model carries the Nd
  table of the Unicode character database (version 14.0.0, compiled into
  the CPython 3.11 `python3` that runs this script); every other character
  raises `ValueError`.
-/

namespace Hamming3126

/-- `TAMANHO_PALAVRA = 31`. -/
def TAMANHO_PALAVRA : Nat := 31

/-- `POS_PARIDADE = [1, 2, 4, 8, 16]`, the 1-based parity positions. -/
def POS_PARIDADE : List Nat := [1, 2, 4, 8, 16]

/-- `POS_DADOS = [i for i in range(1, 32) if i not in POS_PARIDADE]`. -/
def POS_DADOS : List Nat :=
  (List.range' 1 31).filter (fun i => !(POS_PARIDADE.contains i))

/-- `inteiro_para_bits(valor, tamanho)`: most-significant-first bit list. -/
def inteiro_para_bits (valor tamanho : Nat) : List Nat :=
  ((List.range tamanho).reverse).map (fun i => (valor >>> i) &&& 1)

/-- `bits_para_inteiro(bits)`: fold the bit list back into an integer. -/
def bits_para_inteiro (bits : List Nat) : Nat :=
  bits.foldl (fun resultado b => (resultado <<< 1) ||| b) 0

/-- `calcular_paridades(palavra_bits)`: for each parity position, xor the
bits of every position whose index has that bit set (excluding the parity
position itself) and store the result at the parity position.  The Python
function mutates the list in place; we return the updated list. -/
def calcular_paridades (palavra_bits : List Nat) : List Nat :=
  POS_PARIDADE.foldl (fun palavra pos_paridade =>
    palavra.set pos_paridade
      ((List.range' 1 TAMANHO_PALAVRA).foldl
        (fun xor_acumulado indice =>
          if indice ≠ pos_paridade ∧ indice &&& pos_paridade ≠ 0 then
            xor_acumulado ^^^ palavra.getD indice 0
          else xor_acumulado) 0)) palavra_bits

/-- Inner loop of `descobrir_pos_erro` for one parity position: xor of all
positions whose index has the parity bit set, this time including the parity
position itself. -/
def verificar_paridade (palavra_bits : List Nat) (pos_paridade : Nat) : Nat :=
  (List.range' 1 TAMANHO_PALAVRA).foldl
    (fun xor_acumulado indice =>
      if indice &&& pos_paridade ≠ 0 then
        xor_acumulado ^^^ palavra_bits.getD indice 0
      else xor_acumulado) 0

/-- `descobrir_pos_erro(palavra_bits)`: or together every failing parity
check (Python truthiness: the accumulated xor is nonzero). -/
def descobrir_pos_erro (palavra_bits : List Nat) : Nat :=
  POS_PARIDADE.foldl (fun pos_erro pos_paridade =>
    if verificar_paridade palavra_bits pos_paridade ≠ 0 then
      pos_erro ||| pos_paridade
    else pos_erro) 0

/-- `int.from_bytes(dados_bytes, 'big')`. -/
def int_from_bytes (dados_bytes : List Nat) : Nat :=
  dados_bytes.foldl (fun acc b => acc * 256 + b) 0

/-- The bitstream built by `codificar_arquivo`: 32-bit big-endian length
header followed by the bits of the file content. -/
def montar_bitstream (dados_bytes : List Nat) : List Nat :=
  inteiro_para_bits dados_bytes.length 32 ++
    inteiro_para_bits (int_from_bytes dados_bytes) (dados_bytes.length * 8)

/-- Fuel-indexed version of the `while bitstream:` chunking loop of
`codificar_arquivo`: take 26 bits, zero-pad the final block to 26.  The
fuel is an upper bound on the number of iterations; `dividir_blocos`
supplies `bitstream.length`, which always suffices. -/
def dividir_blocos_aux : Nat → List Nat → List (List Nat)
  | 0, _ => []
  | combustivel + 1, bitstream =>
    if bitstream = [] then []
    else
      (bitstream.take 26 ++ List.replicate (26 - (bitstream.take 26).length) 0)
        :: dividir_blocos_aux combustivel (bitstream.drop 26)

/-- The chunking loop of `codificar_arquivo`. -/
def dividir_blocos (bitstream : List Nat) : List (List Nat) :=
  dividir_blocos_aux bitstream.length bitstream

/-- Body of the encode loop that builds `palavra_bits`:
`palavra_bits = [0] * 32; for bit, pos in zip(bloco_dados, POS_DADOS):
palavra_bits[pos] = bit`. -/
def montar_palavra (bloco_dados : List Nat) : List Nat :=
  (bloco_dados.zip POS_DADOS).foldl
    (fun palavra par => palavra.set par.2 par.1) (List.replicate 32 0)

/-- `''.join(str(b) for b in palavra_bits[1:])`. -/
def palavra_para_token (palavra_bits : List Nat) : List Char :=
  (palavra_bits.drop 1).map Nat.digitChar

/-- `codificar_arquivo` minus the file I/O: from the raw bytes to the list
of whitespace-delimited 31-character tokens written to the output. -/
def codificar_palavras (dados_bytes : List Nat) : List (List Char) :=
  (dividir_blocos (montar_bitstream dados_bytes)).map
    (fun bloco_dados =>
      palavra_para_token (calcular_paridades (montar_palavra bloco_dados)))

/-- Start codepoints of the Unicode decimal digit runs: category Nd of the
Unicode character database (version 14.0.0, the table compiled into the
CPython 3.11 `python3` that runs this script).  Every Nd run is ten
consecutive codepoints holding the digits 0 through 9 in order, which is
exactly what `int()` accepts in a numeric string and how it values each
digit character. -/
def INICIOS_DIGITOS_DECIMAIS : List Nat :=
  [48, 1632, 1776, 1984, 2406, 2534, 2662, 2790, 2918, 3046, 3174, 3302,
   3430, 3558, 3664, 3792, 3872, 4160, 4240, 6112, 6160, 6470, 6608, 6784,
   6800, 6992, 7088, 7232, 7248, 42528, 43216, 43264, 43472, 43504, 43600,
   44016, 65296, 66720, 68912, 69734, 69872, 69942, 70096, 70384, 70736,
   70864, 71248, 71360, 71472, 71904, 72016, 72784, 73040, 73120, 92768,
   92864, 93008, 120782, 120792, 120802, 120812, 120822, 123200, 123632,
   125264, 130032]

/-- Membership in Unicode category Nd: `c` is a decimal digit character
exactly when its codepoint falls in one of the ten-codepoint digit runs. -/
def eh_digito_decimal (c : Char) : Bool :=
  INICIOS_DIGITOS_DECIMAIS.any (fun inicio => inicio ≤ c.toNat && c.toNat < inicio + 10)

/-- Decimal value of a digit character: its offset inside its digit run. -/
def valor_digito_decimal (c : Char) : Nat :=
  match INICIOS_DIGITOS_DECIMAIS.find?
      (fun inicio => inicio ≤ c.toNat && c.toNat < inicio + 10) with
  | some inicio => c.toNat - inicio
  | none => 0

/-- `int(c)` on a single character: succeeds exactly on Unicode decimal
digit characters (category Nd — ASCII '0'..'9', Arabic-Indic digits,
fullwidth digits, and so on), returning the digit value; raises
`ValueError` on every other character. -/
def int_de_char (c : Char) : Except String Nat :=
  if eh_digito_decimal c then .ok (valor_digito_decimal c)
  else .error "ValueError: invalid literal for int"

/-- Numeric part of the decode loop body: find the error position, flip the
indicated bit when `1 <= pos_erro <= TAMANHO_PALAVRA`, then read the data
positions back out. -/
def decodificar_bloco (palavra : List Nat) : List Nat :=
  let pos_erro := descobrir_pos_erro palavra
  let corrigida :=
    if 1 ≤ pos_erro ∧ pos_erro ≤ TAMANHO_PALAVRA then
      palavra.set pos_erro (palavra.getD pos_erro 0 ^^^ 1)
    else palavra
  POS_DADOS.map (fun pos => corrigida.getD pos 0)

/-- One iteration of the decode loop: length check, `int(c)` parsing into
the 1-based word `[0] + [int(c) for c in str_palavra]`, then
`decodificar_bloco`. -/
def processar_palavra (str_palavra : List Char) : Except String (List Nat) :=
  if str_palavra.length ≠ TAMANHO_PALAVRA then
    .error "ValueError: Palavra de tamanho invalido"
  else
    match str_palavra.mapM int_de_char with
    | .error e => .error e
    | .ok bits => .ok (decodificar_bloco (0 :: bits))

/-- `valor.to_bytes(tamanho, 'big')`: big-endian bytes, `OverflowError`
when the value does not fit. -/
def to_bytes (valor tamanho : Nat) : Except String (List Nat) :=
  if valor < 256 ^ tamanho then
    .ok (((List.range tamanho).reverse).map (fun i => (valor >>> (8 * i)) &&& 255))
  else .error "OverflowError: int too big to convert"

/-- `decodificar_arquivo` minus the file I/O: from the list of
whitespace-delimited tokens to the recovered bytes.  The 32-bit header is
read with `bits_para_inteiro(bitstream[:32])`, the data bits are
`bitstream[32:32 + tamanho_original * 8]`, and the bytes are rebuilt with
`to_bytes`.  The destination file is written only after all of this
succeeds, so an `.error` result means no output file is created. -/
def decodificar_palavras (palavras : List (List Char)) : Except String (List Nat) :=
  match palavras.mapM processar_palavra with
  | .error e => .error e
  | .ok blocos =>
    let bitstream := blocos.flatten
    let tamanho_original := bits_para_inteiro (bitstream.take 32)
    let bits_dados := (bitstream.drop 32).take (tamanho_original * 8)
    to_bytes (bits_para_inteiro bits_dados) tamanho_original

/-- Statement of the codeword invariant, following the specification text:
the bit at parity position `p` equals the xor of the bits at every position
`i ≠ p` whose index has the bit of `p` set (`i &&& p ≠ 0`), read from the
finished codeword. -/
def paridade_invariante (palavra_bits : List Nat) (pos_paridade : Nat) : Prop :=
  palavra_bits.getD pos_paridade 0 =
    (List.range' 1 TAMANHO_PALAVRA).foldl
      (fun xor_acumulado indice =>
        if indice ≠ pos_paridade ∧ indice &&& pos_paridade ≠ 0 then
          xor_acumulado ^^^ palavra_bits.getD indice 0
        else xor_acumulado) 0

/-! ### Generic xor and fold lemmas -/

theorem xor_left_comm (a b c : Nat) : a ^^^ (b ^^^ c) = b ^^^ (a ^^^ c) := by
  rw [← Nat.xor_assoc, Nat.xor_comm a b, Nat.xor_assoc]

theorem xor_le_one {a b : Nat} (ha : a ≤ 1) (hb : b ≤ 1) : a ^^^ b ≤ 1 := by
  interval_cases a <;> interval_cases b <;> decide

theorem two_mul_lor_bit (r : Nat) {b : Nat} (hb : b ≤ 1) :
    2 * r ||| b = 2 * r + b := by
  interval_cases b
  · simp
  · have h1 : 2 * r = Nat.bit false r := by simp [Nat.bit_val]
    have h2 : (1 : Nat) = Nat.bit true 0 := by simp [Nat.bit_val]
    rw [h1, h2, Nat.lor_bit]
    simp [Nat.bit_val]

theorem foldl_xor_acc (l : List Nat) :
    ∀ z : Nat, l.foldl (· ^^^ ·) z = z ^^^ l.foldl (· ^^^ ·) 0 := by
  induction l with
  | nil => intro z; simp
  | cons a l ih =>
    intro z
    simp only [List.foldl_cons]
    rw [ih (z ^^^ a), ih (0 ^^^ a), Nat.zero_xor, Nat.xor_assoc]

theorem foldl_xor_self (l : List Nat) :
    l.foldl (· ^^^ ·) (l.foldl (· ^^^ ·) 0) = 0 := by
  rw [foldl_xor_acc]
  exact Nat.xor_self _

theorem xor_cancel_15 (a1 a2 a3 a4 a5 a6 a7 a8 a9 a10 a11 a12 a13 a14 a15 : Nat) :
    0 ^^^ (0 ^^^ a1 ^^^ a2 ^^^ a3 ^^^ a4 ^^^ a5 ^^^ a6 ^^^ a7 ^^^ a8 ^^^ a9 ^^^
      a10 ^^^ a11 ^^^ a12 ^^^ a13 ^^^ a14 ^^^ a15) ^^^
      a1 ^^^ a2 ^^^ a3 ^^^ a4 ^^^ a5 ^^^ a6 ^^^ a7 ^^^ a8 ^^^ a9 ^^^
      a10 ^^^ a11 ^^^ a12 ^^^ a13 ^^^ a14 ^^^ a15 = 0 := by
  show List.foldl (· ^^^ ·)
      (0 ^^^ List.foldl (· ^^^ ·) 0
        [a1, a2, a3, a4, a5, a6, a7, a8, a9, a10, a11, a12, a13, a14, a15])
      [a1, a2, a3, a4, a5, a6, a7, a8, a9, a10, a11, a12, a13, a14, a15] = 0
  rw [Nat.zero_xor]
  exact foldl_xor_self _

/-! ### List getD and set helpers -/

theorem getD_set_self {l : List Nat} {i v : Nat} (h : i < l.length) :
    (l.set i v).getD i 0 = v := by
  rw [List.getD_eq_getElem?_getD, List.getElem?_set_self h]
  rfl

theorem getD_set_ne {l : List Nat} {i j v : Nat} (h : i ≠ j) :
    (l.set i v).getD j 0 = l.getD j 0 := by
  rw [List.getD_eq_getElem?_getD, List.getElem?_set_ne h, ← List.getD_eq_getElem?_getD]

theorem set_getD_self {l : List Nat} {i : Nat} (h : i < l.length) :
    l.set i (l.getD i 0) = l := by
  apply List.ext_getElem?
  intro j
  by_cases hj : i = j
  · subst hj
    rw [List.getElem?_set_self h, List.getD_eq_getElem?_getD,
      List.getElem?_eq_getElem h]
    rfl
  · rw [List.getElem?_set_ne hj]

theorem getD_le_one {l : List Nat} (h : ∀ x ∈ l, x ≤ 1) (n : Nat) :
    l.getD n 0 ≤ 1 := by
  rw [List.getD_eq_getElem?_getD]
  cases hl : l[n]? with
  | none => simp
  | some x => simpa using h x (List.getElem?_mem hl)

/-! ### Bit and byte conversion lemmas -/

theorem range_reverse_succ (n : Nat) :
    (List.range (n + 1)).reverse = n :: (List.range n).reverse := by
  rw [List.range_succ, List.reverse_append]
  rfl

theorem inteiro_para_bits_length (v n : Nat) :
    (inteiro_para_bits v n).length = n := by
  simp [inteiro_para_bits]

theorem inteiro_para_bits_succ (v n : Nat) :
    inteiro_para_bits v (n + 1) = ((v >>> n) &&& 1) :: inteiro_para_bits v n := by
  unfold inteiro_para_bits
  rw [range_reverse_succ]
  rfl

theorem inteiro_para_bits_le_one (v n : Nat) : ∀ x ∈ inteiro_para_bits v n, x ≤ 1 := by
  intro x hx
  unfold inteiro_para_bits at hx
  simp only [List.mem_map] at hx
  obtain ⟨i, _, rfl⟩ := hx
  rw [Nat.and_one_is_mod]
  omega

theorem inteiro_para_bits_zero (n : Nat) :
    inteiro_para_bits 0 n = List.replicate n 0 := by
  refine List.eq_replicate_iff.mpr ⟨inteiro_para_bits_length 0 n, ?_⟩
  intro b hb
  unfold inteiro_para_bits at hb
  simp only [List.mem_map] at hb
  obtain ⟨i, _, rfl⟩ := hb
  simp

theorem foldl_bits_inteiro (v : Nat) :
    ∀ n acc : Nat, (inteiro_para_bits v n).foldl (fun resultado b => (resultado <<< 1) ||| b) acc
      = acc * 2 ^ n + v % 2 ^ n := by
  intro n
  induction n with
  | zero => intro acc; simp [inteiro_para_bits, Nat.mod_one]
  | succ n ih =>
    intro acc
    rw [inteiro_para_bits_succ]
    simp only [List.foldl_cons]
    have hacc : (acc <<< 1) ||| ((v >>> n) &&& 1) = 2 * acc + v / 2 ^ n % 2 := by
      rw [Nat.and_one_is_mod, Nat.shiftRight_eq_div_pow, Nat.shiftLeft_eq,
        show acc * 2 ^ 1 = 2 * acc by ring]
      exact two_mul_lor_bit acc (by omega)
    rw [hacc, ih, Nat.pow_succ, Nat.mod_mul]
    ring

theorem bits_para_inteiro_inteiro_para_bits (v n : Nat) :
    bits_para_inteiro (inteiro_para_bits v n) = v % 2 ^ n := by
  unfold bits_para_inteiro
  rw [foldl_bits_inteiro]
  simp

theorem foldl_bits_lt (l : List Nat) :
    (∀ x ∈ l, x ≤ 1) →
      ∀ acc : Nat, l.foldl (fun resultado b => (resultado <<< 1) ||| b) acc
        < (acc + 1) * 2 ^ l.length := by
  induction l with
  | nil => intro _ acc; simp
  | cons b t ih =>
    intro h acc
    have hb : b ≤ 1 := h b (List.mem_cons_self b t)
    have ht : ∀ x ∈ t, x ≤ 1 := fun y hy => h y (List.mem_cons_of_mem b hy)
    simp only [List.foldl_cons, List.length_cons]
    have h1 : (acc <<< 1) ||| b = 2 * acc + b := by
      rw [Nat.shiftLeft_eq, show acc * 2 ^ 1 = 2 * acc by ring]
      exact two_mul_lor_bit acc hb
    rw [h1]
    calc t.foldl (fun resultado b => (resultado <<< 1) ||| b) (2 * acc + b)
        < (2 * acc + b + 1) * 2 ^ t.length := ih ht _
      _ ≤ 2 * (acc + 1) * 2 ^ t.length := Nat.mul_le_mul_right _ (by omega)
      _ = (acc + 1) * 2 ^ (t.length + 1) := by ring

theorem bits_para_inteiro_lt (l : List Nat) (h : ∀ x ∈ l, x ≤ 1) :
    bits_para_inteiro l < 2 ^ l.length := by
  have := foldl_bits_lt l h 0
  simpa [bits_para_inteiro] using this

theorem pow256 (n : Nat) : (2 : Nat) ^ (8 * n) = 256 ^ n := by
  rw [pow_mul]
  norm_num

theorem foldl_int_from_bytes (l : List Nat) :
    ∀ acc : Nat, l.foldl (fun acc b => acc * 256 + b) acc
      = acc * 256 ^ l.length + int_from_bytes l := by
  induction l with
  | nil => intro acc; simp [int_from_bytes]
  | cons x l ih =>
    intro acc
    simp only [List.foldl_cons, List.length_cons]
    rw [ih (acc * 256 + x),
      show int_from_bytes (x :: l) = List.foldl (fun acc b => acc * 256 + b) (0 * 256 + x) l from rfl,
      ih (0 * 256 + x)]
    ring

theorem int_from_bytes_cons (x : Nat) (l : List Nat) :
    int_from_bytes (x :: l) = x * 256 ^ l.length + int_from_bytes l := by
  show List.foldl (fun acc b => acc * 256 + b) (0 * 256 + x) l = _
  rw [foldl_int_from_bytes]
  ring

theorem int_from_bytes_lt (l : List Nat) :
    (∀ x ∈ l, x < 256) → int_from_bytes l < 256 ^ l.length := by
  induction l with
  | nil => intro _; simp [int_from_bytes]
  | cons x t ih =>
    intro h
    have hx : x < 256 := h x (List.mem_cons_self x t)
    have hF : int_from_bytes t < 256 ^ t.length :=
      ih (fun y hy => h y (List.mem_cons_of_mem x hy))
    rw [int_from_bytes_cons, List.length_cons, Nat.pow_succ]
    calc x * 256 ^ t.length + int_from_bytes t
        < x * 256 ^ t.length + 256 ^ t.length := Nat.add_lt_add_left hF _
      _ = (x + 1) * 256 ^ t.length := by ring
      _ ≤ 256 * 256 ^ t.length := Nat.mul_le_mul_right _ hx
      _ = 256 ^ t.length * 256 := by ring

theorem int_from_bytes_replicate_zero (n : Nat) :
    int_from_bytes (List.replicate n 0) = 0 := by
  induction n with
  | zero => rfl
  | succ n ih =>
    rw [List.replicate_succ]
    show List.foldl (fun acc b => acc * 256 + b) (0 * 256 + 0) (List.replicate n 0) = 0
    simpa [int_from_bytes] using ih

theorem shift_and_255 (v i : Nat) : (v >>> (8 * i)) &&& 255 = v / 256 ^ i % 256 := by
  rw [Nat.shiftRight_eq_div_pow, pow256,
    show (255 : Nat) = 2 ^ 8 - 1 by norm_num, Nat.and_pow_two_sub_one_eq_mod,
    show (2 : Nat) ^ 8 = 256 by norm_num]

theorem to_bytes_map (l : List Nat) :
    (∀ x ∈ l, x < 256) →
      ((List.range l.length).reverse).map
        (fun i => (int_from_bytes l >>> (8 * i)) &&& 255) = l := by
  induction l with
  | nil => intro _; simp
  | cons x t ih =>
    intro h
    have hx : x < 256 := h x (List.mem_cons_self x t)
    have ht : ∀ y ∈ t, y < 256 := fun y hy => h y (List.mem_cons_of_mem x hy)
    have hF : int_from_bytes t < 256 ^ t.length := int_from_bytes_lt t ht
    rw [List.length_cons, range_reverse_succ, List.map_cons]
    have hhead : (int_from_bytes (x :: t) >>> (8 * t.length)) &&& 255 = x := by
      rw [shift_and_255, int_from_bytes_cons,
        Nat.add_comm (x * 256 ^ t.length),
        Nat.add_mul_div_right _ _ (Nat.pos_pow_of_pos _ (by norm_num)),
        Nat.div_eq_of_lt hF, Nat.zero_add, Nat.mod_eq_of_lt hx]
    have htail : ((List.range t.length).reverse).map
        (fun i => (int_from_bytes (x :: t) >>> (8 * i)) &&& 255) = t := by
      rw [List.map_congr_left, ih ht]
      intro i hi
      have hi' : i < t.length := by
        rw [List.mem_reverse, List.mem_range] at hi
        exact hi
      have hsplit : int_from_bytes (x :: t)
          = int_from_bytes t + x * 256 ^ (t.length - i - 1) * 256 * 256 ^ i := by
        rw [int_from_bytes_cons]
        have hpow : 256 ^ t.length = 256 ^ (t.length - i - 1) * 256 * 256 ^ i := by
          rw [Nat.mul_assoc, ← Nat.pow_succ', ← pow_add]
          congr 1
          omega
        rw [hpow]
        ring
      rw [shift_and_255, shift_and_255, hsplit,
        Nat.add_mul_div_right _ _ (Nat.pos_pow_of_pos _ (by norm_num)),
        Nat.add_mul_mod_self_right]
    rw [hhead, htail]

theorem to_bytes_int_from_bytes (l : List Nat) (h : ∀ x ∈ l, x < 256) :
    to_bytes (int_from_bytes l) l.length = .ok l := by
  unfold to_bytes
  rw [if_pos (int_from_bytes_lt l h)]
  rw [to_bytes_map l h]

/-! ### Chunking loop lemmas -/

theorem dividir_blocos_aux_nil : ∀ c : Nat, dividir_blocos_aux c [] = [] := by
  intro c
  cases c <;> rfl

theorem dividir_blocos_aux_irrel :
    ∀ c1 c2 : Nat, ∀ bs : List Nat, bs.length ≤ c1 → bs.length ≤ c2 →
      dividir_blocos_aux c1 bs = dividir_blocos_aux c2 bs := by
  intro c1
  induction c1 with
  | zero =>
    intro c2 bs h1 _
    have hbs : bs = [] := List.eq_nil_of_length_eq_zero (Nat.le_zero.mp h1)
    subst hbs
    rw [dividir_blocos_aux_nil, dividir_blocos_aux_nil]
  | succ c1 ih =>
    intro c2 bs h1 h2
    by_cases hbs : bs = []
    · subst hbs
      rw [dividir_blocos_aux_nil, dividir_blocos_aux_nil]
    · have hpos : 0 < bs.length := List.length_pos.mpr hbs
      cases c2 with
      | zero => omega
      | succ c2 =>
        simp only [dividir_blocos_aux, if_neg hbs]
        congr 1
        apply ih
        · rw [List.length_drop]; omega
        · rw [List.length_drop]; omega

theorem dividir_blocos_eq (bitstream : List Nat) :
    dividir_blocos bitstream =
      if bitstream = [] then []
      else (bitstream.take 26 ++ List.replicate (26 - (bitstream.take 26).length) 0)
        :: dividir_blocos (bitstream.drop 26) := by
  by_cases hbs : bitstream = []
  · subst hbs
    simp [dividir_blocos, dividir_blocos_aux_nil]
  · rw [if_neg hbs]
    unfold dividir_blocos
    have hpos : 0 < bitstream.length := List.length_pos.mpr hbs
    obtain ⟨n, hn⟩ : ∃ n, bitstream.length = n + 1 := ⟨bitstream.length - 1, by omega⟩
    rw [hn]
    simp only [dividir_blocos_aux, if_neg hbs]
    congr 1
    apply dividir_blocos_aux_irrel
    · rw [List.length_drop]; omega
    · exact Nat.le_refl _

theorem dividir_blocos_aux_flatten :
    ∀ c : Nat, ∀ bs : List Nat, bs.length ≤ c →
      ∃ k, (dividir_blocos_aux c bs).flatten = bs ++ List.replicate k 0 := by
  intro c
  induction c with
  | zero =>
    intro bs h
    have hbs : bs = [] := List.eq_nil_of_length_eq_zero (Nat.le_zero.mp h)
    subst hbs
    exact ⟨0, by simp [dividir_blocos_aux_nil]⟩
  | succ c ih =>
    intro bs h
    by_cases hbs : bs = []
    · subst hbs
      exact ⟨0, by simp [dividir_blocos_aux_nil]⟩
    · have hpos : 0 < bs.length := List.length_pos.mpr hbs
      by_cases hlen : bs.length ≤ 26
      · refine ⟨26 - bs.length, ?_⟩
        have hdrop : bs.drop 26 = [] := List.drop_eq_nil_of_le hlen
        have htake : bs.take 26 = bs := List.take_of_length_le hlen
        simp only [dividir_blocos_aux, if_neg hbs, hdrop, dividir_blocos_aux_nil,
          List.flatten_cons, List.flatten_nil, List.append_nil, htake]
      · push_neg at hlen
        obtain ⟨k, hk⟩ := ih (bs.drop 26) (by rw [List.length_drop]; omega)
        refine ⟨k, ?_⟩
        have htake_len : (bs.take 26).length = 26 := by
          rw [List.length_take]; omega
        simp only [dividir_blocos_aux, if_neg hbs, List.flatten_cons, hk, htake_len,
          Nat.sub_self, List.replicate_zero, List.append_nil]
        rw [← List.append_assoc, List.take_append_drop]

theorem dividir_blocos_aux_length :
    ∀ c : Nat, ∀ bs : List Nat, bs.length ≤ c →
      (dividir_blocos_aux c bs).length = (bs.length + 25) / 26 := by
  intro c
  induction c with
  | zero =>
    intro bs h
    have hbs : bs = [] := List.eq_nil_of_length_eq_zero (Nat.le_zero.mp h)
    subst hbs
    simp [dividir_blocos_aux_nil]
  | succ c ih =>
    intro bs h
    by_cases hbs : bs = []
    · subst hbs
      simp [dividir_blocos_aux_nil]
    · have hpos : 0 < bs.length := List.length_pos.mpr hbs
      simp only [dividir_blocos_aux, if_neg hbs, List.length_cons]
      rw [ih (bs.drop 26) (by rw [List.length_drop]; omega), List.length_drop]
      rw [show bs.length + 25 = bs.length - 1 + 26 from by omega,
        Nat.add_div_right _ (by norm_num)]
      congr 1
      by_cases h26 : 26 ≤ bs.length
      · congr 1
        omega
      · rw [show bs.length - 26 = 0 from by omega]
        rw [Nat.div_eq_of_lt (by omega), Nat.div_eq_of_lt (by omega)]

theorem dividir_blocos_aux_mem_length :
    ∀ c : Nat, ∀ bs : List Nat, ∀ blk ∈ dividir_blocos_aux c bs, blk.length = 26 := by
  intro c
  induction c with
  | zero =>
    intro bs blk h
    simp [dividir_blocos_aux] at h
  | succ c ih =>
    intro bs blk h
    by_cases hbs : bs = []
    · subst hbs
      rw [dividir_blocos_aux_nil] at h
      simp at h
    · simp only [dividir_blocos_aux, if_neg hbs, List.mem_cons] at h
      rcases h with rfl | h
      · rw [List.length_append, List.length_replicate, List.length_take]
        omega
      · exact ih _ _ h

theorem dividir_blocos_aux_mem_le_one :
    ∀ c : Nat, ∀ bs : List Nat, (∀ x ∈ bs, x ≤ 1) →
      ∀ blk ∈ dividir_blocos_aux c bs, ∀ x ∈ blk, x ≤ 1 := by
  intro c
  induction c with
  | zero =>
    intro bs _ blk h
    simp [dividir_blocos_aux] at h
  | succ c ih =>
    intro bs hbits blk h
    by_cases hbs : bs = []
    · subst hbs
      rw [dividir_blocos_aux_nil] at h
      simp at h
    · simp only [dividir_blocos_aux, if_neg hbs, List.mem_cons] at h
      rcases h with rfl | h
      · intro x hx
        rcases List.mem_append.mp hx with h1 | h2
        · exact hbits x (List.mem_of_mem_take h1)
        · rw [List.eq_of_mem_replicate h2]
          norm_num
      · exact ih _ (fun x hx => hbits x (List.mem_of_mem_drop hx)) _ h

theorem dividir_blocos_flatten (bs : List Nat) :
    ∃ k, (dividir_blocos bs).flatten = bs ++ List.replicate k 0 :=
  dividir_blocos_aux_flatten _ _ (Nat.le_refl _)

theorem dividir_blocos_length (bs : List Nat) :
    (dividir_blocos bs).length = (bs.length + 25) / 26 :=
  dividir_blocos_aux_length _ _ (Nat.le_refl _)

theorem dividir_blocos_mem_length (bs : List Nat) :
    ∀ blk ∈ dividir_blocos bs, blk.length = 26 :=
  dividir_blocos_aux_mem_length _ _

theorem dividir_blocos_mem_le_one (bs : List Nat) (h : ∀ x ∈ bs, x ≤ 1) :
    ∀ blk ∈ dividir_blocos bs, ∀ x ∈ blk, x ≤ 1 :=
  dividir_blocos_aux_mem_le_one _ _ h

/-! ### Word construction lemmas -/

theorem foldl_set_length (ps : List (Nat × Nat)) :
    ∀ w : List Nat, (ps.foldl (fun palavra par => palavra.set par.2 par.1) w).length
      = w.length := by
  induction ps with
  | nil => intro w; rfl
  | cons p ps ih =>
    intro w
    rw [List.foldl_cons, ih, List.length_set]

theorem montar_palavra_length (bloco : List Nat) : (montar_palavra bloco).length = 32 := by
  unfold montar_palavra
  rw [foldl_set_length]
  simp

theorem foldl_set_le_one (ps : List (Nat × Nat)) :
    ∀ w : List Nat, (∀ x ∈ w, x ≤ 1) → (∀ par ∈ ps, par.1 ≤ 1) →
      ∀ x ∈ ps.foldl (fun palavra par => palavra.set par.2 par.1) w, x ≤ 1 := by
  induction ps with
  | nil => intro w hw _; exact hw
  | cons p ps ih =>
    intro w hw hp
    rw [List.foldl_cons]
    apply ih
    · intro x hx
      rcases List.mem_or_eq_of_mem_set hx with h | rfl
      · exact hw x h
      · exact hp p (List.mem_cons_self p ps)
    · intro q hq
      exact hp q (List.mem_cons_of_mem p hq)

theorem montar_palavra_le_one (bloco : List Nat) (h : ∀ x ∈ bloco, x ≤ 1) :
    ∀ x ∈ montar_palavra bloco, x ≤ 1 := by
  apply foldl_set_le_one
  · intro x hx
    rw [List.eq_of_mem_replicate hx]
    norm_num
  · intro par hpar
    obtain ⟨a, b⟩ := par
    exact h _ (List.of_mem_zip hpar).1

theorem foldl_xor_cond_le_one (w : List Nat) (hw : ∀ x ∈ w, x ≤ 1) (p : Nat)
    (l : List Nat) :
    ∀ acc : Nat, acc ≤ 1 →
      l.foldl (fun xor_acumulado indice =>
        if indice ≠ p ∧ indice &&& p ≠ 0 then xor_acumulado ^^^ w.getD indice 0
        else xor_acumulado) acc ≤ 1 := by
  induction l with
  | nil => intro acc h; exact h
  | cons i l ih =>
    intro acc hacc
    rw [List.foldl_cons]
    apply ih
    by_cases hc : i ≠ p ∧ i &&& p ≠ 0
    · rw [if_pos hc]
      exact xor_le_one hacc (getD_le_one hw i)
    · rw [if_neg hc]
      exact hacc

theorem foldl_calc_le_one (ps : List Nat) :
    ∀ w : List Nat, (∀ x ∈ w, x ≤ 1) →
      ∀ x ∈ ps.foldl (fun palavra pos_paridade =>
        palavra.set pos_paridade
          ((List.range' 1 TAMANHO_PALAVRA).foldl
            (fun xor_acumulado indice =>
              if indice ≠ pos_paridade ∧ indice &&& pos_paridade ≠ 0 then
                xor_acumulado ^^^ palavra.getD indice 0
              else xor_acumulado) 0)) w, x ≤ 1 := by
  induction ps with
  | nil => intro w hw; exact hw
  | cons p ps ih =>
    intro w hw
    rw [List.foldl_cons]
    apply ih
    intro x hx
    rcases List.mem_or_eq_of_mem_set hx with h | rfl
    · exact hw x h
    · exact foldl_xor_cond_le_one w hw p _ 0 (by norm_num)

theorem calcular_paridades_le_one (w : List Nat) (hw : ∀ x ∈ w, x ≤ 1) :
    ∀ x ∈ calcular_paridades w, x ≤ 1 :=
  foldl_calc_le_one POS_PARIDADE w hw

theorem calcular_paridades_length (w : List Nat) :
    (calcular_paridades w).length = w.length := by
  unfold calcular_paridades POS_PARIDADE
  simp only [List.foldl_cons, List.foldl_nil, List.length_set]

/-! ### Except monad helpers -/

theorem except_ok_bind {α β : Type} (a : α) (f : α → Except String β) :
    (Except.ok a >>= f) = f a := rfl

theorem except_error_bind {α β : Type} (e : String) (f : α → Except String β) :
    ((Except.error e : Except String α) >>= f) = Except.error e := rfl

theorem int_de_char_digitChar {b : Nat} (hb : b ≤ 1) :
    int_de_char (Nat.digitChar b) = .ok b := by
  interval_cases b <;> rfl

theorem mapM_int_de_char_digitChar (l : List Nat) :
    (∀ x ∈ l, x ≤ 1) → (l.map Nat.digitChar).mapM int_de_char = .ok l := by
  induction l with
  | nil => intro _; rfl
  | cons b t ih =>
    intro h
    rw [List.map_cons, List.mapM_cons, int_de_char_digitChar (h b (List.mem_cons_self b t)),
      except_ok_bind, ih (fun y hy => h y (List.mem_cons_of_mem b hy)), except_ok_bind]
    rfl

theorem mapM_error_of_mem {α β : Type} (f : α → Except String β) :
    ∀ l : List α, ∀ x : α, x ∈ l → (∃ e, f x = .error e) →
      ∃ e, l.mapM f = .error e := by
  intro l
  induction l with
  | nil =>
    intro x hx _
    simp at hx
  | cons a t ih =>
    intro x hx hfx
    rw [List.mapM_cons]
    rcases List.mem_cons.mp hx with rfl | hx'
    · obtain ⟨e, he⟩ := hfx
      exact ⟨e, by rw [he, except_error_bind]⟩
    · cases hfa : f a with
      | error e => exact ⟨e, by rw [except_error_bind]⟩
      | ok b =>
        obtain ⟨e, he⟩ := ih x hx' hfx
        exact ⟨e, by rw [except_ok_bind, he, except_error_bind]⟩

theorem exists_26 (d : List Nat) (hd : d.length = 26) :
    ∃ d0 d1 d2 d3 d4 d5 d6 d7 d8 d9 d10 d11 d12 d13 d14 d15 d16 d17 d18 d19 d20 d21 d22 d23 d24 d25 : Nat,
      d = [d0, d1, d2, d3, d4, d5, d6, d7, d8, d9, d10, d11, d12, d13, d14, d15, d16, d17, d18, d19, d20, d21, d22, d23, d24, d25] := by
  rcases d with _ | ⟨d0, d⟩
  · simp at hd
  rcases d with _ | ⟨d1, d⟩
  · simp at hd
  rcases d with _ | ⟨d2, d⟩
  · simp at hd
  rcases d with _ | ⟨d3, d⟩
  · simp at hd
  rcases d with _ | ⟨d4, d⟩
  · simp at hd
  rcases d with _ | ⟨d5, d⟩
  · simp at hd
  rcases d with _ | ⟨d6, d⟩
  · simp at hd
  rcases d with _ | ⟨d7, d⟩
  · simp at hd
  rcases d with _ | ⟨d8, d⟩
  · simp at hd
  rcases d with _ | ⟨d9, d⟩
  · simp at hd
  rcases d with _ | ⟨d10, d⟩
  · simp at hd
  rcases d with _ | ⟨d11, d⟩
  · simp at hd
  rcases d with _ | ⟨d12, d⟩
  · simp at hd
  rcases d with _ | ⟨d13, d⟩
  · simp at hd
  rcases d with _ | ⟨d14, d⟩
  · simp at hd
  rcases d with _ | ⟨d15, d⟩
  · simp at hd
  rcases d with _ | ⟨d16, d⟩
  · simp at hd
  rcases d with _ | ⟨d17, d⟩
  · simp at hd
  rcases d with _ | ⟨d18, d⟩
  · simp at hd
  rcases d with _ | ⟨d19, d⟩
  · simp at hd
  rcases d with _ | ⟨d20, d⟩
  · simp at hd
  rcases d with _ | ⟨d21, d⟩
  · simp at hd
  rcases d with _ | ⟨d22, d⟩
  · simp at hd
  rcases d with _ | ⟨d23, d⟩
  · simp at hd
  rcases d with _ | ⟨d24, d⟩
  · simp at hd
  rcases d with _ | ⟨d25, d⟩
  · simp at hd
  rcases d with _ | ⟨d26, d⟩
  · exact ⟨d0, d1, d2, d3, d4, d5, d6, d7, d8, d9, d10, d11, d12, d13, d14, d15, d16, d17, d18, d19, d20, d21, d22, d23, d24, d25, rfl⟩
  · simp at hd


theorem foldl_step {f : List Nat → Nat → List Nat} {w w2 : List Nat} {p : Nat}
    {ps : List Nat} (h : f w p = w2) :
    List.foldl f w (p :: ps) = List.foldl f w2 ps := by
  rw [List.foldl_cons, h]

/-! ### Evaluation of the encoder on a generic 26-bit block -/

theorem POS_DADOS_eq : POS_DADOS = [3, 5, 6, 7, 9, 10, 11, 12, 13, 14, 15,
    17, 18, 19, 20, 21, 22, 23, 24, 25, 26, 27, 28, 29, 30, 31] := rfl

theorem montar_palavra_eval (d0 d1 d2 d3 d4 d5 d6 d7 d8 d9 d10 d11 d12 d13 d14 d15 d16 d17 d18 d19 d20 d21 d22 d23 d24 d25 : Nat) :
    montar_palavra [d0, d1, d2, d3, d4, d5, d6, d7, d8, d9, d10, d11, d12, d13, d14, d15, d16, d17, d18, d19, d20, d21, d22, d23, d24, d25] =
    [0,
      0,
      0,
      d0,
      0,
      d1,
      d2,
      d3,
      0,
      d4,
      d5,
      d6,
      d7,
      d8,
      d9,
      d10,
      0,
      d11,
      d12,
      d13,
      d14,
      d15,
      d16,
      d17,
      d18,
      d19,
      d20,
      d21,
      d22,
      d23,
      d24,
      d25] := by
  simp only [montar_palavra, POS_DADOS_eq, List.zip_cons_cons, List.zip_nil_right,
    List.foldl_cons, List.foldl_nil, List.replicate, List.set_cons_succ,
    List.set_cons_zero]

theorem calc_montar_eval (d0 d1 d2 d3 d4 d5 d6 d7 d8 d9 d10 d11 d12 d13 d14 d15 d16 d17 d18 d19 d20 d21 d22 d23 d24 d25 : Nat) :
    calcular_paridades (montar_palavra [d0, d1, d2, d3, d4, d5, d6, d7, d8, d9, d10, d11, d12, d13, d14, d15, d16, d17, d18, d19, d20, d21, d22, d23, d24, d25]) =
    [0,
      (0 ^^^ d0 ^^^ d1 ^^^ d3 ^^^ d4 ^^^ d6 ^^^ d8 ^^^ d10 ^^^ d11 ^^^ d13 ^^^ d15 ^^^ d17 ^^^ d19 ^^^ d21 ^^^ d23 ^^^ d25),
      (0 ^^^ d0 ^^^ d2 ^^^ d3 ^^^ d5 ^^^ d6 ^^^ d9 ^^^ d10 ^^^ d12 ^^^ d13 ^^^ d16 ^^^ d17 ^^^ d20 ^^^ d21 ^^^ d24 ^^^ d25),
      d0,
      (0 ^^^ d1 ^^^ d2 ^^^ d3 ^^^ d7 ^^^ d8 ^^^ d9 ^^^ d10 ^^^ d14 ^^^ d15 ^^^ d16 ^^^ d17 ^^^ d22 ^^^ d23 ^^^ d24 ^^^ d25),
      d1,
      d2,
      d3,
      (0 ^^^ d4 ^^^ d5 ^^^ d6 ^^^ d7 ^^^ d8 ^^^ d9 ^^^ d10 ^^^ d18 ^^^ d19 ^^^ d20 ^^^ d21 ^^^ d22 ^^^ d23 ^^^ d24 ^^^ d25),
      d4,
      d5,
      d6,
      d7,
      d8,
      d9,
      d10,
      (0 ^^^ d11 ^^^ d12 ^^^ d13 ^^^ d14 ^^^ d15 ^^^ d16 ^^^ d17 ^^^ d18 ^^^ d19 ^^^ d20 ^^^ d21 ^^^ d22 ^^^ d23 ^^^ d24 ^^^ d25),
      d11,
      d12,
      d13,
      d14,
      d15,
      d16,
      d17,
      d18,
      d19,
      d20,
      d21,
      d22,
      d23,
      d24,
      d25] := by
  calc calcular_paridades (montar_palavra [d0, d1, d2, d3, d4, d5, d6, d7, d8, d9, d10, d11, d12, d13, d14, d15, d16, d17, d18, d19, d20, d21, d22, d23, d24, d25])
      = List.foldl (fun palavra pos_paridade =>
      palavra.set pos_paridade
        ((List.range' 1 TAMANHO_PALAVRA).foldl
          (fun xor_acumulado indice =>
            if indice ≠ pos_paridade ∧ indice &&& pos_paridade ≠ 0 then
              xor_acumulado ^^^ palavra.getD indice 0
            else xor_acumulado) 0))
        (montar_palavra [d0, d1, d2, d3, d4, d5, d6, d7, d8, d9, d10, d11, d12, d13, d14, d15, d16, d17, d18, d19, d20, d21, d22, d23, d24, d25])
        [1, 2, 4, 8, 16] := rfl
    _ = List.foldl (fun palavra pos_paridade =>
      palavra.set pos_paridade
        ((List.range' 1 TAMANHO_PALAVRA).foldl
          (fun xor_acumulado indice =>
            if indice ≠ pos_paridade ∧ indice &&& pos_paridade ≠ 0 then
              xor_acumulado ^^^ palavra.getD indice 0
            else xor_acumulado) 0))
        [0,
      0,
      0,
      d0,
      0,
      d1,
      d2,
      d3,
      0,
      d4,
      d5,
      d6,
      d7,
      d8,
      d9,
      d10,
      0,
      d11,
      d12,
      d13,
      d14,
      d15,
      d16,
      d17,
      d18,
      d19,
      d20,
      d21,
      d22,
      d23,
      d24,
      d25]
        [1, 2, 4, 8, 16] := by rw [montar_palavra_eval]
    _ = List.foldl (fun palavra pos_paridade =>
      palavra.set pos_paridade
        ((List.range' 1 TAMANHO_PALAVRA).foldl
          (fun xor_acumulado indice =>
            if indice ≠ pos_paridade ∧ indice &&& pos_paridade ≠ 0 then
              xor_acumulado ^^^ palavra.getD indice 0
            else xor_acumulado) 0))
        [0,
      (0 ^^^ d0 ^^^ d1 ^^^ d3 ^^^ d4 ^^^ d6 ^^^ d8 ^^^ d10 ^^^ d11 ^^^ d13 ^^^ d15 ^^^ d17 ^^^ d19 ^^^ d21 ^^^ d23 ^^^ d25),
      0,
      d0,
      0,
      d1,
      d2,
      d3,
      0,
      d4,
      d5,
      d6,
      d7,
      d8,
      d9,
      d10,
      0,
      d11,
      d12,
      d13,
      d14,
      d15,
      d16,
      d17,
      d18,
      d19,
      d20,
      d21,
      d22,
      d23,
      d24,
      d25]
        [2, 4, 8, 16] := foldl_step rfl
    _ = List.foldl (fun palavra pos_paridade =>
      palavra.set pos_paridade
        ((List.range' 1 TAMANHO_PALAVRA).foldl
          (fun xor_acumulado indice =>
            if indice ≠ pos_paridade ∧ indice &&& pos_paridade ≠ 0 then
              xor_acumulado ^^^ palavra.getD indice 0
            else xor_acumulado) 0))
        [0,
      (0 ^^^ d0 ^^^ d1 ^^^ d3 ^^^ d4 ^^^ d6 ^^^ d8 ^^^ d10 ^^^ d11 ^^^ d13 ^^^ d15 ^^^ d17 ^^^ d19 ^^^ d21 ^^^ d23 ^^^ d25),
      (0 ^^^ d0 ^^^ d2 ^^^ d3 ^^^ d5 ^^^ d6 ^^^ d9 ^^^ d10 ^^^ d12 ^^^ d13 ^^^ d16 ^^^ d17 ^^^ d20 ^^^ d21 ^^^ d24 ^^^ d25),
      d0,
      0,
      d1,
      d2,
      d3,
      0,
      d4,
      d5,
      d6,
      d7,
      d8,
      d9,
      d10,
      0,
      d11,
      d12,
      d13,
      d14,
      d15,
      d16,
      d17,
      d18,
      d19,
      d20,
      d21,
      d22,
      d23,
      d24,
      d25]
        [4, 8, 16] := foldl_step rfl
    _ = List.foldl (fun palavra pos_paridade =>
      palavra.set pos_paridade
        ((List.range' 1 TAMANHO_PALAVRA).foldl
          (fun xor_acumulado indice =>
            if indice ≠ pos_paridade ∧ indice &&& pos_paridade ≠ 0 then
              xor_acumulado ^^^ palavra.getD indice 0
            else xor_acumulado) 0))
        [0,
      (0 ^^^ d0 ^^^ d1 ^^^ d3 ^^^ d4 ^^^ d6 ^^^ d8 ^^^ d10 ^^^ d11 ^^^ d13 ^^^ d15 ^^^ d17 ^^^ d19 ^^^ d21 ^^^ d23 ^^^ d25),
      (0 ^^^ d0 ^^^ d2 ^^^ d3 ^^^ d5 ^^^ d6 ^^^ d9 ^^^ d10 ^^^ d12 ^^^ d13 ^^^ d16 ^^^ d17 ^^^ d20 ^^^ d21 ^^^ d24 ^^^ d25),
      d0,
      (0 ^^^ d1 ^^^ d2 ^^^ d3 ^^^ d7 ^^^ d8 ^^^ d9 ^^^ d10 ^^^ d14 ^^^ d15 ^^^ d16 ^^^ d17 ^^^ d22 ^^^ d23 ^^^ d24 ^^^ d25),
      d1,
      d2,
      d3,
      0,
      d4,
      d5,
      d6,
      d7,
      d8,
      d9,
      d10,
      0,
      d11,
      d12,
      d13,
      d14,
      d15,
      d16,
      d17,
      d18,
      d19,
      d20,
      d21,
      d22,
      d23,
      d24,
      d25]
        [8, 16] := foldl_step rfl
    _ = List.foldl (fun palavra pos_paridade =>
      palavra.set pos_paridade
        ((List.range' 1 TAMANHO_PALAVRA).foldl
          (fun xor_acumulado indice =>
            if indice ≠ pos_paridade ∧ indice &&& pos_paridade ≠ 0 then
              xor_acumulado ^^^ palavra.getD indice 0
            else xor_acumulado) 0))
        [0,
      (0 ^^^ d0 ^^^ d1 ^^^ d3 ^^^ d4 ^^^ d6 ^^^ d8 ^^^ d10 ^^^ d11 ^^^ d13 ^^^ d15 ^^^ d17 ^^^ d19 ^^^ d21 ^^^ d23 ^^^ d25),
      (0 ^^^ d0 ^^^ d2 ^^^ d3 ^^^ d5 ^^^ d6 ^^^ d9 ^^^ d10 ^^^ d12 ^^^ d13 ^^^ d16 ^^^ d17 ^^^ d20 ^^^ d21 ^^^ d24 ^^^ d25),
      d0,
      (0 ^^^ d1 ^^^ d2 ^^^ d3 ^^^ d7 ^^^ d8 ^^^ d9 ^^^ d10 ^^^ d14 ^^^ d15 ^^^ d16 ^^^ d17 ^^^ d22 ^^^ d23 ^^^ d24 ^^^ d25),
      d1,
      d2,
      d3,
      (0 ^^^ d4 ^^^ d5 ^^^ d6 ^^^ d7 ^^^ d8 ^^^ d9 ^^^ d10 ^^^ d18 ^^^ d19 ^^^ d20 ^^^ d21 ^^^ d22 ^^^ d23 ^^^ d24 ^^^ d25),
      d4,
      d5,
      d6,
      d7,
      d8,
      d9,
      d10,
      0,
      d11,
      d12,
      d13,
      d14,
      d15,
      d16,
      d17,
      d18,
      d19,
      d20,
      d21,
      d22,
      d23,
      d24,
      d25]
        [16] := foldl_step rfl
    _ = List.foldl (fun palavra pos_paridade =>
      palavra.set pos_paridade
        ((List.range' 1 TAMANHO_PALAVRA).foldl
          (fun xor_acumulado indice =>
            if indice ≠ pos_paridade ∧ indice &&& pos_paridade ≠ 0 then
              xor_acumulado ^^^ palavra.getD indice 0
            else xor_acumulado) 0))
        [0,
      (0 ^^^ d0 ^^^ d1 ^^^ d3 ^^^ d4 ^^^ d6 ^^^ d8 ^^^ d10 ^^^ d11 ^^^ d13 ^^^ d15 ^^^ d17 ^^^ d19 ^^^ d21 ^^^ d23 ^^^ d25),
      (0 ^^^ d0 ^^^ d2 ^^^ d3 ^^^ d5 ^^^ d6 ^^^ d9 ^^^ d10 ^^^ d12 ^^^ d13 ^^^ d16 ^^^ d17 ^^^ d20 ^^^ d21 ^^^ d24 ^^^ d25),
      d0,
      (0 ^^^ d1 ^^^ d2 ^^^ d3 ^^^ d7 ^^^ d8 ^^^ d9 ^^^ d10 ^^^ d14 ^^^ d15 ^^^ d16 ^^^ d17 ^^^ d22 ^^^ d23 ^^^ d24 ^^^ d25),
      d1,
      d2,
      d3,
      (0 ^^^ d4 ^^^ d5 ^^^ d6 ^^^ d7 ^^^ d8 ^^^ d9 ^^^ d10 ^^^ d18 ^^^ d19 ^^^ d20 ^^^ d21 ^^^ d22 ^^^ d23 ^^^ d24 ^^^ d25),
      d4,
      d5,
      d6,
      d7,
      d8,
      d9,
      d10,
      (0 ^^^ d11 ^^^ d12 ^^^ d13 ^^^ d14 ^^^ d15 ^^^ d16 ^^^ d17 ^^^ d18 ^^^ d19 ^^^ d20 ^^^ d21 ^^^ d22 ^^^ d23 ^^^ d24 ^^^ d25),
      d11,
      d12,
      d13,
      d14,
      d15,
      d16,
      d17,
      d18,
      d19,
      d20,
      d21,
      d22,
      d23,
      d24,
      d25]
        [] := foldl_step rfl
    _ = [0,
      (0 ^^^ d0 ^^^ d1 ^^^ d3 ^^^ d4 ^^^ d6 ^^^ d8 ^^^ d10 ^^^ d11 ^^^ d13 ^^^ d15 ^^^ d17 ^^^ d19 ^^^ d21 ^^^ d23 ^^^ d25),
      (0 ^^^ d0 ^^^ d2 ^^^ d3 ^^^ d5 ^^^ d6 ^^^ d9 ^^^ d10 ^^^ d12 ^^^ d13 ^^^ d16 ^^^ d17 ^^^ d20 ^^^ d21 ^^^ d24 ^^^ d25),
      d0,
      (0 ^^^ d1 ^^^ d2 ^^^ d3 ^^^ d7 ^^^ d8 ^^^ d9 ^^^ d10 ^^^ d14 ^^^ d15 ^^^ d16 ^^^ d17 ^^^ d22 ^^^ d23 ^^^ d24 ^^^ d25),
      d1,
      d2,
      d3,
      (0 ^^^ d4 ^^^ d5 ^^^ d6 ^^^ d7 ^^^ d8 ^^^ d9 ^^^ d10 ^^^ d18 ^^^ d19 ^^^ d20 ^^^ d21 ^^^ d22 ^^^ d23 ^^^ d24 ^^^ d25),
      d4,
      d5,
      d6,
      d7,
      d8,
      d9,
      d10,
      (0 ^^^ d11 ^^^ d12 ^^^ d13 ^^^ d14 ^^^ d15 ^^^ d16 ^^^ d17 ^^^ d18 ^^^ d19 ^^^ d20 ^^^ d21 ^^^ d22 ^^^ d23 ^^^ d24 ^^^ d25),
      d11,
      d12,
      d13,
      d14,
      d15,
      d16,
      d17,
      d18,
      d19,
      d20,
      d21,
      d22,
      d23,
      d24,
      d25] := List.foldl_nil

theorem check_enc_1 (d0 d1 d2 d3 d4 d5 d6 d7 d8 d9 d10 d11 d12 d13 d14 d15 d16 d17 d18 d19 d20 d21 d22 d23 d24 d25 : Nat) :
    verificar_paridade (calcular_paridades (montar_palavra [d0, d1, d2, d3, d4, d5, d6, d7, d8, d9, d10, d11, d12, d13, d14, d15, d16, d17, d18, d19, d20, d21, d22, d23, d24, d25])) 1 = 0 := by
  rw [calc_montar_eval]
  exact xor_cancel_15 d0 d1 d3 d4 d6 d8 d10 d11 d13 d15 d17 d19 d21 d23 d25

theorem check_enc_2 (d0 d1 d2 d3 d4 d5 d6 d7 d8 d9 d10 d11 d12 d13 d14 d15 d16 d17 d18 d19 d20 d21 d22 d23 d24 d25 : Nat) :
    verificar_paridade (calcular_paridades (montar_palavra [d0, d1, d2, d3, d4, d5, d6, d7, d8, d9, d10, d11, d12, d13, d14, d15, d16, d17, d18, d19, d20, d21, d22, d23, d24, d25])) 2 = 0 := by
  rw [calc_montar_eval]
  exact xor_cancel_15 d0 d2 d3 d5 d6 d9 d10 d12 d13 d16 d17 d20 d21 d24 d25

theorem check_enc_4 (d0 d1 d2 d3 d4 d5 d6 d7 d8 d9 d10 d11 d12 d13 d14 d15 d16 d17 d18 d19 d20 d21 d22 d23 d24 d25 : Nat) :
    verificar_paridade (calcular_paridades (montar_palavra [d0, d1, d2, d3, d4, d5, d6, d7, d8, d9, d10, d11, d12, d13, d14, d15, d16, d17, d18, d19, d20, d21, d22, d23, d24, d25])) 4 = 0 := by
  rw [calc_montar_eval]
  exact xor_cancel_15 d1 d2 d3 d7 d8 d9 d10 d14 d15 d16 d17 d22 d23 d24 d25

theorem check_enc_8 (d0 d1 d2 d3 d4 d5 d6 d7 d8 d9 d10 d11 d12 d13 d14 d15 d16 d17 d18 d19 d20 d21 d22 d23 d24 d25 : Nat) :
    verificar_paridade (calcular_paridades (montar_palavra [d0, d1, d2, d3, d4, d5, d6, d7, d8, d9, d10, d11, d12, d13, d14, d15, d16, d17, d18, d19, d20, d21, d22, d23, d24, d25])) 8 = 0 := by
  rw [calc_montar_eval]
  exact xor_cancel_15 d4 d5 d6 d7 d8 d9 d10 d18 d19 d20 d21 d22 d23 d24 d25

theorem check_enc_16 (d0 d1 d2 d3 d4 d5 d6 d7 d8 d9 d10 d11 d12 d13 d14 d15 d16 d17 d18 d19 d20 d21 d22 d23 d24 d25 : Nat) :
    verificar_paridade (calcular_paridades (montar_palavra [d0, d1, d2, d3, d4, d5, d6, d7, d8, d9, d10, d11, d12, d13, d14, d15, d16, d17, d18, d19, d20, d21, d22, d23, d24, d25])) 16 = 0 := by
  rw [calc_montar_eval]
  exact xor_cancel_15 d11 d12 d13 d14 d15 d16 d17 d18 d19 d20 d21 d22 d23 d24 d25

theorem extrair_enc (d0 d1 d2 d3 d4 d5 d6 d7 d8 d9 d10 d11 d12 d13 d14 d15 d16 d17 d18 d19 d20 d21 d22 d23 d24 d25 : Nat) :
    POS_DADOS.map
      (fun pos => (calcular_paridades (montar_palavra [d0, d1, d2, d3, d4, d5, d6, d7, d8, d9, d10, d11, d12, d13, d14, d15, d16, d17, d18, d19, d20, d21, d22, d23, d24, d25])).getD pos 0)
    = [d0, d1, d2, d3, d4, d5, d6, d7, d8, d9, d10, d11, d12, d13, d14, d15, d16, d17, d18, d19, d20, d21, d22, d23, d24, d25] := by
  rw [calc_montar_eval, POS_DADOS_eq]
  simp only [List.map_cons, List.map_nil, List.getD_cons_succ, List.getD_cons_zero]

/-! ### Decoding a freshly encoded block -/

theorem descobrir_eq_zero {w : List Nat}
    (h : ∀ p ∈ POS_PARIDADE, verificar_paridade w p = 0) :
    descobrir_pos_erro w = 0 := by
  have h1 := h 1 (by simp [POS_PARIDADE])
  have h2 := h 2 (by simp [POS_PARIDADE])
  have h4 := h 4 (by simp [POS_PARIDADE])
  have h8 := h 8 (by simp [POS_PARIDADE])
  have h16 := h 16 (by simp [POS_PARIDADE])
  simp [descobrir_pos_erro, POS_PARIDADE, List.foldl_cons, List.foldl_nil,
    h1, h2, h4, h8, h16]

theorem zero_cons_drop {w : List Nat} (hne : w ≠ []) (hw : w.getD 0 0 = 0) :
    0 :: w.drop 1 = w := by
  cases w with
  | nil => exact absurd rfl hne
  | cons a t =>
    simp only [List.getD_cons_zero] at hw
    subst hw
    rfl

theorem processar_palavra_eq_ok {t : List Char} {bits : List Nat}
    (hlen : t.length = TAMANHO_PALAVRA) (hparse : t.mapM int_de_char = .ok bits) :
    processar_palavra t = .ok (decodificar_bloco (0 :: bits)) := by
  unfold processar_palavra
  rw [hlen, hparse, if_neg (fun hcon => hcon rfl)]

theorem descobrir_enc (d0 d1 d2 d3 d4 d5 d6 d7 d8 d9 d10 d11 d12 d13 d14 d15 d16 d17 d18 d19 d20 d21 d22 d23 d24 d25 : Nat) :
    descobrir_pos_erro (calcular_paridades (montar_palavra [d0, d1, d2, d3, d4, d5, d6, d7, d8, d9, d10, d11, d12, d13, d14, d15, d16, d17, d18, d19, d20, d21, d22, d23, d24, d25])) = 0 := by
  apply descobrir_eq_zero
  intro p hp
  simp only [POS_PARIDADE, List.mem_cons, List.not_mem_nil, or_false] at hp
  rcases hp with rfl | rfl | rfl | rfl | rfl
  · exact check_enc_1 d0 d1 d2 d3 d4 d5 d6 d7 d8 d9 d10 d11 d12 d13 d14 d15 d16 d17 d18 d19 d20 d21 d22 d23 d24 d25
  · exact check_enc_2 d0 d1 d2 d3 d4 d5 d6 d7 d8 d9 d10 d11 d12 d13 d14 d15 d16 d17 d18 d19 d20 d21 d22 d23 d24 d25
  · exact check_enc_4 d0 d1 d2 d3 d4 d5 d6 d7 d8 d9 d10 d11 d12 d13 d14 d15 d16 d17 d18 d19 d20 d21 d22 d23 d24 d25
  · exact check_enc_8 d0 d1 d2 d3 d4 d5 d6 d7 d8 d9 d10 d11 d12 d13 d14 d15 d16 d17 d18 d19 d20 d21 d22 d23 d24 d25
  · exact check_enc_16 d0 d1 d2 d3 d4 d5 d6 d7 d8 d9 d10 d11 d12 d13 d14 d15 d16 d17 d18 d19 d20 d21 d22 d23 d24 d25

theorem decodificar_bloco_enc (d0 d1 d2 d3 d4 d5 d6 d7 d8 d9 d10 d11 d12 d13 d14 d15 d16 d17 d18 d19 d20 d21 d22 d23 d24 d25 : Nat) :
    decodificar_bloco (calcular_paridades (montar_palavra [d0, d1, d2, d3, d4, d5, d6, d7, d8, d9, d10, d11, d12, d13, d14, d15, d16, d17, d18, d19, d20, d21, d22, d23, d24, d25])) = [d0, d1, d2, d3, d4, d5, d6, d7, d8, d9, d10, d11, d12, d13, d14, d15, d16, d17, d18, d19, d20, d21, d22, d23, d24, d25] := by
  simp only [decodificar_bloco, descobrir_enc]
  rw [if_neg (by decide : ¬(1 ≤ 0 ∧ 0 ≤ TAMANHO_PALAVRA))]
  exact extrair_enc d0 d1 d2 d3 d4 d5 d6 d7 d8 d9 d10 d11 d12 d13 d14 d15 d16 d17 d18 d19 d20 d21 d22 d23 d24 d25

theorem processar_palavra_enc (d0 d1 d2 d3 d4 d5 d6 d7 d8 d9 d10 d11 d12 d13 d14 d15 d16 d17 d18 d19 d20 d21 d22 d23 d24 d25 : Nat)
    (hbits : ∀ x ∈ [d0, d1, d2, d3, d4, d5, d6, d7, d8, d9, d10, d11, d12, d13, d14, d15, d16, d17, d18, d19, d20, d21, d22, d23, d24, d25], x ≤ 1) :
    processar_palavra (palavra_para_token (calcular_paridades (montar_palavra [d0, d1, d2, d3, d4, d5, d6, d7, d8, d9, d10, d11, d12, d13, d14, d15, d16, d17, d18, d19, d20, d21, d22, d23, d24, d25])))
    = .ok [d0, d1, d2, d3, d4, d5, d6, d7, d8, d9, d10, d11, d12, d13, d14, d15, d16, d17, d18, d19, d20, d21, d22, d23, d24, d25] := by
  have hwbits : ∀ x ∈ calcular_paridades (montar_palavra [d0, d1, d2, d3, d4, d5, d6, d7, d8, d9, d10, d11, d12, d13, d14, d15, d16, d17, d18, d19, d20, d21, d22, d23, d24, d25]), x ≤ 1 :=
    calcular_paridades_le_one _ (montar_palavra_le_one _ hbits)
  have hlen32 : (calcular_paridades (montar_palavra [d0, d1, d2, d3, d4, d5, d6, d7, d8, d9, d10, d11, d12, d13, d14, d15, d16, d17, d18, d19, d20, d21, d22, d23, d24, d25])).length = 32 := by
    rw [calcular_paridades_length, montar_palavra_length]
  have hne : calcular_paridades (montar_palavra [d0, d1, d2, d3, d4, d5, d6, d7, d8, d9, d10, d11, d12, d13, d14, d15, d16, d17, d18, d19, d20, d21, d22, d23, d24, d25]) ≠ [] := by
    intro hcon
    rw [hcon] at hlen32
    simp at hlen32
  have hhead : (calcular_paridades (montar_palavra [d0, d1, d2, d3, d4, d5, d6, d7, d8, d9, d10, d11, d12, d13, d14, d15, d16, d17, d18, d19, d20, d21, d22, d23, d24, d25])).getD 0 0 = 0 := by
    rw [calc_montar_eval]
    rfl
  have htok_len : (palavra_para_token (calcular_paridades (montar_palavra [d0, d1, d2, d3, d4, d5, d6, d7, d8, d9, d10, d11, d12, d13, d14, d15, d16, d17, d18, d19, d20, d21, d22, d23, d24, d25]))).length
      = TAMANHO_PALAVRA := by
    simp [palavra_para_token, hlen32, TAMANHO_PALAVRA]
  have hparse : (palavra_para_token (calcular_paridades (montar_palavra [d0, d1, d2, d3, d4, d5, d6, d7, d8, d9, d10, d11, d12, d13, d14, d15, d16, d17, d18, d19, d20, d21, d22, d23, d24, d25]))).mapM int_de_char
      = .ok ((calcular_paridades (montar_palavra [d0, d1, d2, d3, d4, d5, d6, d7, d8, d9, d10, d11, d12, d13, d14, d15, d16, d17, d18, d19, d20, d21, d22, d23, d24, d25])).drop 1) := by
    unfold palavra_para_token
    apply mapM_int_de_char_digitChar
    intro x hx
    exact hwbits x (List.mem_of_mem_drop hx)
  rw [processar_palavra_eq_ok htok_len hparse, zero_cons_drop hne hhead,
    decodificar_bloco_enc]

/-! ### Syndrome of a word with one flipped bit -/

theorem foldl_xor_if_acc (c : Nat → Prop) [DecidablePred c] (g : Nat → Nat) :
    ∀ (l : List Nat) (z : Nat),
      l.foldl (fun a i => if c i then a ^^^ g i else a) z
        = z ^^^ l.foldl (fun a i => if c i then a ^^^ g i else a) 0 := by
  intro l
  induction l with
  | nil => intro z; simp
  | cons i l ih =>
    intro z
    simp only [List.foldl_cons]
    by_cases hc : c i
    · rw [if_pos hc, if_pos hc, ih (z ^^^ g i), ih (0 ^^^ g i), Nat.zero_xor,
        Nat.xor_assoc]
    · rw [if_neg hc, if_neg hc, ih z]

theorem foldl_xor_if_set_not_mem (c : Nat → Prop) [DecidablePred c] (w : List Nat)
    (i v : Nat) :
    ∀ (l : List Nat) (z : Nat), i ∉ l →
      l.foldl (fun a j => if c j then a ^^^ (w.set i v).getD j 0 else a) z
        = l.foldl (fun a j => if c j then a ^^^ w.getD j 0 else a) z := by
  intro l
  induction l with
  | nil => intro z _; rfl
  | cons j l ih =>
    intro z hj
    have hij : i ≠ j := fun hcon => hj (by rw [hcon]; exact List.mem_cons_self j l)
    have hmem : i ∉ l := fun hcon => hj (List.mem_cons_of_mem j hcon)
    simp only [List.foldl_cons, getD_set_ne hij, ih _ hmem]

theorem foldl_xor_if_set_mem (c : Nat → Prop) [DecidablePred c] (w : List Nat)
    (i v : Nat) (hi : i < w.length) :
    ∀ l : List Nat, l.Nodup → i ∈ l →
      l.foldl (fun a j => if c j then a ^^^ (w.set i v).getD j 0 else a) 0
        = if c i then
            (l.foldl (fun a j => if c j then a ^^^ w.getD j 0 else a) 0)
              ^^^ w.getD i 0 ^^^ v
          else l.foldl (fun a j => if c j then a ^^^ w.getD j 0 else a) 0 := by
  intro l
  induction l with
  | nil =>
    intro _ hmem
    simp at hmem
  | cons j l ih =>
    intro hnd hmem
    obtain ⟨hjl, hndl⟩ := List.nodup_cons.mp hnd
    simp only [List.foldl_cons]
    rcases List.mem_cons.mp hmem with heq | hil
    · subst heq
      rw [getD_set_self hi, foldl_xor_if_set_not_mem c w i v l _ hjl]
      by_cases hci : c i
      · simp only [if_pos hci, Nat.zero_xor]
        rw [foldl_xor_if_acc c (fun j => w.getD j 0) l v,
          foldl_xor_if_acc c (fun j => w.getD j 0) l (w.getD i 0)]
        simp only [Nat.xor_comm, xor_left_comm, Nat.xor_assoc, Nat.xor_self,
          Nat.xor_zero, Nat.zero_xor, Nat.xor_cancel_left]
      · simp only [if_neg hci]
    · have hij : i ≠ j := fun hcon => hjl (hcon ▸ hil)
      rw [getD_set_ne hij,
        foldl_xor_if_acc c (fun j2 => (w.set i v).getD j2 0) l
          (if c j then 0 ^^^ w.getD j 0 else 0),
        ih hndl hil,
        foldl_xor_if_acc c (fun j2 => w.getD j2 0) l
          (if c j then 0 ^^^ w.getD j 0 else 0)]
      by_cases hci : c i
      · simp only [if_pos hci, Nat.xor_assoc]
      · simp only [if_neg hci]

theorem verificar_paridade_set (w : List Nat) (p i v : Nat) (hw : w.length = 32)
    (hi1 : 1 ≤ i) (hi31 : i ≤ 31) :
    verificar_paridade (w.set i v) p
      = if i &&& p ≠ 0 then verificar_paridade w p ^^^ w.getD i 0 ^^^ v
        else verificar_paridade w p := by
  unfold verificar_paridade
  have hmem : i ∈ List.range' 1 TAMANHO_PALAVRA :=
    List.mem_range'_1.mpr ⟨hi1, by show i < 1 + 31; omega⟩
  have hnd : (List.range' 1 TAMANHO_PALAVRA).Nodup :=
    List.nodup_range' 1 TAMANHO_PALAVRA 1 (by norm_num)
  exact foldl_xor_if_set_mem (fun j => j &&& p ≠ 0) w i v (by omega) _ hnd hmem

theorem check_flip_aux {x : Nat} (c : Prop) [Decidable c] :
    (if c then (0 : Nat) ^^^ x ^^^ (x ^^^ 1) else 0) = if c then 1 else 0 := by
  by_cases hc : c
  · rw [if_pos hc, if_pos hc, Nat.zero_xor, Nat.xor_cancel_left]
  · rw [if_neg hc, if_neg hc]

theorem descobrir_pos_erro_flip (w : List Nat) (i : Nat) (hw : w.length = 32)
    (hchecks : ∀ p ∈ POS_PARIDADE, verificar_paridade w p = 0)
    (hi1 : 1 ≤ i) (hi31 : i ≤ 31) :
    descobrir_pos_erro (w.set i (w.getD i 0 ^^^ 1)) = i := by
  have hs : ∀ p ∈ POS_PARIDADE, verificar_paridade (w.set i (w.getD i 0 ^^^ 1)) p
      = if i &&& p ≠ 0 then (1 : Nat) else 0 := by
    intro p hp
    rw [verificar_paridade_set w p i _ hw hi1 hi31, hchecks p hp]
    exact check_flip_aux _
  have hs1 := hs 1 (by simp [POS_PARIDADE])
  have hs2 := hs 2 (by simp [POS_PARIDADE])
  have hs4 := hs 4 (by simp [POS_PARIDADE])
  have hs8 := hs 8 (by simp [POS_PARIDADE])
  have hs16 := hs 16 (by simp [POS_PARIDADE])
  simp only [descobrir_pos_erro, POS_PARIDADE, List.foldl_cons, List.foldl_nil,
    hs1, hs2, hs4, hs8, hs16]
  interval_cases i <;> decide

theorem set_flip_flip {w : List Nat} {i : Nat} (hi : i < w.length) :
    (w.set i (w.getD i 0 ^^^ 1)).set i
      ((w.set i (w.getD i 0 ^^^ 1)).getD i 0 ^^^ 1) = w := by
  rw [getD_set_self hi, List.set_set, Nat.xor_assoc, Nat.xor_self, Nat.xor_zero,
    set_getD_self hi]

theorem checks_enc (d0 d1 d2 d3 d4 d5 d6 d7 d8 d9 d10 d11 d12 d13 d14 d15 d16 d17 d18 d19 d20 d21 d22 d23 d24 d25 : Nat) :
    ∀ p ∈ POS_PARIDADE,
      verificar_paridade (calcular_paridades (montar_palavra [d0, d1, d2, d3, d4, d5, d6, d7, d8, d9, d10, d11, d12, d13, d14, d15, d16, d17, d18, d19, d20, d21, d22, d23, d24, d25])) p = 0 := by
  intro p hp
  simp only [POS_PARIDADE, List.mem_cons, List.not_mem_nil, or_false] at hp
  rcases hp with rfl | rfl | rfl | rfl | rfl
  · exact check_enc_1 d0 d1 d2 d3 d4 d5 d6 d7 d8 d9 d10 d11 d12 d13 d14 d15 d16 d17 d18 d19 d20 d21 d22 d23 d24 d25
  · exact check_enc_2 d0 d1 d2 d3 d4 d5 d6 d7 d8 d9 d10 d11 d12 d13 d14 d15 d16 d17 d18 d19 d20 d21 d22 d23 d24 d25
  · exact check_enc_4 d0 d1 d2 d3 d4 d5 d6 d7 d8 d9 d10 d11 d12 d13 d14 d15 d16 d17 d18 d19 d20 d21 d22 d23 d24 d25
  · exact check_enc_8 d0 d1 d2 d3 d4 d5 d6 d7 d8 d9 d10 d11 d12 d13 d14 d15 d16 d17 d18 d19 d20 d21 d22 d23 d24 d25
  · exact check_enc_16 d0 d1 d2 d3 d4 d5 d6 d7 d8 d9 d10 d11 d12 d13 d14 d15 d16 d17 d18 d19 d20 d21 d22 d23 d24 d25

theorem calc_montar_length (d0 d1 d2 d3 d4 d5 d6 d7 d8 d9 d10 d11 d12 d13 d14 d15 d16 d17 d18 d19 d20 d21 d22 d23 d24 d25 : Nat) :
    (calcular_paridades (montar_palavra [d0, d1, d2, d3, d4, d5, d6, d7, d8, d9, d10, d11, d12, d13, d14, d15, d16, d17, d18, d19, d20, d21, d22, d23, d24, d25])).length = 32 := by
  rw [calcular_paridades_length, montar_palavra_length]

theorem descobrir_flip_enc (d0 d1 d2 d3 d4 d5 d6 d7 d8 d9 d10 d11 d12 d13 d14 d15 d16 d17 d18 d19 d20 d21 d22 d23 d24 d25 : Nat) (i : Nat)
    (hi1 : 1 ≤ i) (hi31 : i ≤ TAMANHO_PALAVRA) :
    descobrir_pos_erro ((calcular_paridades (montar_palavra [d0, d1, d2, d3, d4, d5, d6, d7, d8, d9, d10, d11, d12, d13, d14, d15, d16, d17, d18, d19, d20, d21, d22, d23, d24, d25])).set i
      ((calcular_paridades (montar_palavra [d0, d1, d2, d3, d4, d5, d6, d7, d8, d9, d10, d11, d12, d13, d14, d15, d16, d17, d18, d19, d20, d21, d22, d23, d24, d25])).getD i 0 ^^^ 1)) = i :=
  descobrir_pos_erro_flip _ i (calc_montar_length d0 d1 d2 d3 d4 d5 d6 d7 d8 d9 d10 d11 d12 d13 d14 d15 d16 d17 d18 d19 d20 d21 d22 d23 d24 d25)
    (checks_enc d0 d1 d2 d3 d4 d5 d6 d7 d8 d9 d10 d11 d12 d13 d14 d15 d16 d17 d18 d19 d20 d21 d22 d23 d24 d25) hi1 hi31

theorem decodificar_bloco_flip (d0 d1 d2 d3 d4 d5 d6 d7 d8 d9 d10 d11 d12 d13 d14 d15 d16 d17 d18 d19 d20 d21 d22 d23 d24 d25 : Nat) (i : Nat)
    (hi1 : 1 ≤ i) (hi31 : i ≤ TAMANHO_PALAVRA) :
    decodificar_bloco ((calcular_paridades (montar_palavra [d0, d1, d2, d3, d4, d5, d6, d7, d8, d9, d10, d11, d12, d13, d14, d15, d16, d17, d18, d19, d20, d21, d22, d23, d24, d25])).set i
      ((calcular_paridades (montar_palavra [d0, d1, d2, d3, d4, d5, d6, d7, d8, d9, d10, d11, d12, d13, d14, d15, d16, d17, d18, d19, d20, d21, d22, d23, d24, d25])).getD i 0 ^^^ 1)) = [d0, d1, d2, d3, d4, d5, d6, d7, d8, d9, d10, d11, d12, d13, d14, d15, d16, d17, d18, d19, d20, d21, d22, d23, d24, d25] := by
  have hlt : i < (calcular_paridades (montar_palavra [d0, d1, d2, d3, d4, d5, d6, d7, d8, d9, d10, d11, d12, d13, d14, d15, d16, d17, d18, d19, d20, d21, d22, d23, d24, d25])).length := by
    rw [calc_montar_length d0 d1 d2 d3 d4 d5 d6 d7 d8 d9 d10 d11 d12 d13 d14 d15 d16 d17 d18 d19 d20 d21 d22 d23 d24 d25]
    have hi31n : i ≤ 31 := hi31
    omega
  simp only [decodificar_bloco, descobrir_flip_enc d0 d1 d2 d3 d4 d5 d6 d7 d8 d9 d10 d11 d12 d13 d14 d15 d16 d17 d18 d19 d20 d21 d22 d23 d24 d25 i hi1 hi31,
    if_pos (And.intro hi1 hi31), set_flip_flip hlt]
  exact extrair_enc d0 d1 d2 d3 d4 d5 d6 d7 d8 d9 d10 d11 d12 d13 d14 d15 d16 d17 d18 d19 d20 d21 d22 d23 d24 d25

/-! ### Pipeline lemmas -/

theorem take_len_append (C R : List Nat) (n : Nat) (h : C.length = n) :
    (C ++ R).take n = C := by
  rw [← h, List.take_left]

theorem drop_len_append (C R : List Nat) (n : Nat) (h : C.length = n) :
    (C ++ R).drop n = R := by
  rw [← h, List.drop_left]

theorem montar_bitstream_length (dados_bytes : List Nat) :
    (montar_bitstream dados_bytes).length = 32 + dados_bytes.length * 8 := by
  unfold montar_bitstream
  rw [List.length_append, inteiro_para_bits_length, inteiro_para_bits_length]

theorem montar_bitstream_le_one (dados_bytes : List Nat) :
    ∀ x ∈ montar_bitstream dados_bytes, x ≤ 1 := by
  intro x hx
  unfold montar_bitstream at hx
  rcases List.mem_append.mp hx with h | h
  · exact inteiro_para_bits_le_one _ _ x h
  · exact inteiro_para_bits_le_one _ _ x h

theorem decodificar_palavras_eq_ok {palavras : List (List Char)}
    {blocos : List (List Nat)}
    (h : palavras.mapM processar_palavra = .ok blocos) :
    decodificar_palavras palavras
      = to_bytes
          (bits_para_inteiro ((blocos.flatten.drop 32).take
            (bits_para_inteiro (blocos.flatten.take 32) * 8)))
          (bits_para_inteiro (blocos.flatten.take 32)) := by
  unfold decodificar_palavras
  rw [h]

theorem mapM_processar_enc :
    ∀ blocos : List (List Nat),
      (∀ blk ∈ blocos, blk.length = 26 ∧ ∀ x ∈ blk, x ≤ 1) →
      (blocos.map (fun bloco_dados =>
        palavra_para_token (calcular_paridades (montar_palavra bloco_dados)))).mapM
          processar_palavra = .ok blocos := by
  intro blocos
  induction blocos with
  | nil => intro _; rfl
  | cons blk rest ih =>
    intro h
    obtain ⟨hlen, hbits⟩ := h blk (List.mem_cons_self blk rest)
    obtain ⟨d0, d1, d2, d3, d4, d5, d6, d7, d8, d9, d10, d11, d12, d13, d14, d15, d16, d17, d18, d19, d20, d21, d22, d23, d24, d25, rfl⟩ := exists_26 blk hlen
    rw [List.map_cons, List.mapM_cons, processar_palavra_enc d0 d1 d2 d3 d4 d5 d6 d7 d8 d9 d10 d11 d12 d13 d14 d15 d16 d17 d18 d19 d20 d21 d22 d23 d24 d25 hbits,
      except_ok_bind, ih (fun b hb => h b (List.mem_cons_of_mem _ hb)),
      except_ok_bind]
    rfl

theorem decodificar_codificar (dados : List Nat)
    (hbytes : ∀ x ∈ dados, x < 256) (hlen : dados.length < 2 ^ 32) :
    decodificar_palavras (codificar_palavras dados) = .ok dados := by
  have hblk : ∀ blk ∈ dividir_blocos (montar_bitstream dados),
      blk.length = 26 ∧ ∀ x ∈ blk, x ≤ 1 := fun blk hb =>
    ⟨dividir_blocos_mem_length _ _ hb,
     dividir_blocos_mem_le_one _ (montar_bitstream_le_one dados) _ hb⟩
  unfold codificar_palavras
  rw [decodificar_palavras_eq_ok (mapM_processar_enc _ hblk)]
  obtain ⟨k, hk⟩ := dividir_blocos_flatten (montar_bitstream dados)
  rw [hk,
    show montar_bitstream dados = inteiro_para_bits dados.length 32 ++
      inteiro_para_bits (int_from_bytes dados) (dados.length * 8) from rfl,
    List.append_assoc,
    take_len_append _ _ 32 (inteiro_para_bits_length _ _),
    drop_len_append _ _ 32 (inteiro_para_bits_length _ _),
    bits_para_inteiro_inteiro_para_bits, Nat.mod_eq_of_lt hlen,
    take_len_append _ _ (dados.length * 8) (inteiro_para_bits_length _ _),
    bits_para_inteiro_inteiro_para_bits]
  have hv : int_from_bytes dados < 2 ^ (dados.length * 8) := by
    have h1 := int_from_bytes_lt dados hbytes
    have h2 : (256 : Nat) ^ dados.length = 2 ^ (dados.length * 8) := by
      rw [Nat.mul_comm, pow256]
    rwa [h2] at h1
  rw [Nat.mod_eq_of_lt hv]
  exact to_bytes_int_from_bytes dados hbytes

/-! ### Well-formed decode inputs never fail -/

theorem mapM_int_de_char_wf (t : List Char) :
    (∀ c ∈ t, c = '0' ∨ c = '1') →
      ∃ bits, t.mapM int_de_char = .ok bits ∧ bits.length = t.length ∧
        ∀ x ∈ bits, x ≤ 1 := by
  induction t with
  | nil => intro _; exact ⟨[], rfl, rfl, by simp⟩
  | cons ch t ih =>
    intro h
    obtain ⟨bits, hb, hblen, hble⟩ := ih (fun c hc => h c (List.mem_cons_of_mem _ hc))
    have hcons : ∀ v : Nat, v ≤ 1 → int_de_char ch = .ok v →
        ∃ bits2, (ch :: t).mapM int_de_char = .ok bits2 ∧
          bits2.length = (ch :: t).length ∧ ∀ x ∈ bits2, x ≤ 1 := by
      intro v hv hch
      refine ⟨v :: bits, ?_, by simp [hblen], ?_⟩
      · rw [List.mapM_cons, hch, except_ok_bind, hb, except_ok_bind]
        rfl
      · intro x hx
        rcases List.mem_cons.mp hx with rfl | hx2
        · exact hv
        · exact hble x hx2
    rcases h ch (List.mem_cons_self _ _) with hc | hc <;> subst hc
    · exact hcons 0 (by norm_num) rfl
    · exact hcons 1 (Nat.le_refl 1) rfl

theorem decodificar_bloco_le_one {palavra : List Nat} (h : ∀ x ∈ palavra, x ≤ 1) :
    ∀ x ∈ decodificar_bloco palavra, x ≤ 1 := by
  intro x hx
  simp only [decodificar_bloco, List.mem_map] at hx
  obtain ⟨pos, _, rfl⟩ := hx
  by_cases hguard : 1 ≤ descobrir_pos_erro palavra ∧
      descobrir_pos_erro palavra ≤ TAMANHO_PALAVRA
  · rw [if_pos hguard]
    apply getD_le_one
    intro y hy
    rcases List.mem_or_eq_of_mem_set hy with h1 | rfl
    · exact h y h1
    · exact xor_le_one (getD_le_one h _) (Nat.le_refl 1)
  · rw [if_neg hguard]
    exact getD_le_one h _

theorem processar_palavra_wf {t : List Char} (hlen : t.length = 31)
    (hc : ∀ c ∈ t, c = '0' ∨ c = '1') :
    ∃ bloco, processar_palavra t = .ok bloco ∧ ∀ x ∈ bloco, x ≤ 1 := by
  obtain ⟨bits, hb, hblen, hble⟩ := mapM_int_de_char_wf t hc
  refine ⟨decodificar_bloco (0 :: bits),
    processar_palavra_eq_ok (by rw [hlen]; rfl) hb, ?_⟩
  apply decodificar_bloco_le_one
  intro x hx
  rcases List.mem_cons.mp hx with rfl | hx2
  · norm_num
  · exact hble x hx2

theorem mapM_processar_wf :
    ∀ palavras : List (List Char),
      (∀ t ∈ palavras, t.length = 31 ∧ ∀ c ∈ t, c = '0' ∨ c = '1') →
      ∃ blocos, palavras.mapM processar_palavra = .ok blocos ∧
        ∀ x ∈ blocos.flatten, x ≤ 1 := by
  intro palavras
  induction palavras with
  | nil => intro _; exact ⟨[], rfl, by simp⟩
  | cons t rest ih =>
    intro h
    obtain ⟨hlen, hc⟩ := h t (List.mem_cons_self t rest)
    obtain ⟨bloco, hok, hble⟩ := processar_palavra_wf hlen hc
    obtain ⟨blocos, hm, hmle⟩ := ih (fun u hu => h u (List.mem_cons_of_mem _ hu))
    refine ⟨bloco :: blocos, ?_, ?_⟩
    · rw [List.mapM_cons, hok, except_ok_bind, hm, except_ok_bind]
      rfl
    · intro x hx
      rw [List.flatten_cons] at hx
      rcases List.mem_append.mp hx with h1 | h2
      · exact hble x h1
      · exact hmle x h2

theorem decodificar_palavras_wf (palavras : List (List Char))
    (h : ∀ t ∈ palavras, t.length = 31 ∧ ∀ c ∈ t, c = '0' ∨ c = '1') :
    ∃ dados, decodificar_palavras palavras = .ok dados := by
  obtain ⟨blocos, hm, hbits⟩ := mapM_processar_wf palavras h
  rw [decodificar_palavras_eq_ok hm]
  unfold to_bytes
  have hbound : bits_para_inteiro ((blocos.flatten.drop 32).take
      (bits_para_inteiro (blocos.flatten.take 32) * 8))
      < 256 ^ bits_para_inteiro (blocos.flatten.take 32) := by
    have hsub : ∀ x ∈ (blocos.flatten.drop 32).take
        (bits_para_inteiro (blocos.flatten.take 32) * 8), x ≤ 1 := by
      intro x hx
      exact hbits x (List.mem_of_mem_drop (List.mem_of_mem_take hx))
    have h1 := bits_para_inteiro_lt _ hsub
    have h2 : ((blocos.flatten.drop 32).take
        (bits_para_inteiro (blocos.flatten.take 32) * 8)).length
        ≤ bits_para_inteiro (blocos.flatten.take 32) * 8 := by
      rw [List.length_take]
      exact Nat.min_le_left _ _
    calc bits_para_inteiro ((blocos.flatten.drop 32).take
            (bits_para_inteiro (blocos.flatten.take 32) * 8))
        < 2 ^ ((blocos.flatten.drop 32).take
            (bits_para_inteiro (blocos.flatten.take 32) * 8)).length := h1
      _ ≤ 2 ^ (bits_para_inteiro (blocos.flatten.take 32) * 8) :=
          Nat.pow_le_pow_right (by norm_num) h2
      _ = 256 ^ bits_para_inteiro (blocos.flatten.take 32) := by
          rw [Nat.mul_comm, pow256]
  rw [if_pos hbound]
  exact ⟨_, rfl⟩

/-! ### Malformed decode inputs fail -/

theorem mapM_int_de_char_error :
    ∀ t : List Char, (∃ c ∈ t, ¬ eh_digito_decimal c) →
      ∃ e, t.mapM int_de_char = .error e := by
  intro t
  induction t with
  | nil =>
    intro h
    simp at h
  | cons ch t ih =>
    intro h
    by_cases hch : eh_digito_decimal ch
    · have hrest : ∃ c ∈ t, ¬ eh_digito_decimal c := by
        obtain ⟨c, hc, hnd⟩ := h
        rcases List.mem_cons.mp hc with rfl | hc2
        · exact absurd hch hnd
        · exact ⟨c, hc2, hnd⟩
      obtain ⟨e, he⟩ := ih hrest
      refine ⟨e, ?_⟩
      rw [List.mapM_cons,
        show int_de_char ch = .ok (valor_digito_decimal ch) from by
          unfold int_de_char; rw [if_pos hch],
        except_ok_bind, he, except_error_bind]
    · refine ⟨"ValueError: invalid literal for int", ?_⟩
      rw [List.mapM_cons,
        show int_de_char ch = .error "ValueError: invalid literal for int" from by
          unfold int_de_char; rw [if_neg hch],
        except_error_bind]

theorem processar_palavra_error_char {t : List Char}
    (h : ∃ c ∈ t, ¬ eh_digito_decimal c) :
    ∃ e, processar_palavra t = .error e := by
  unfold processar_palavra
  by_cases hlen : t.length ≠ TAMANHO_PALAVRA
  · rw [if_pos hlen]
    exact ⟨_, rfl⟩
  · rw [if_neg hlen]
    obtain ⟨e, he⟩ := mapM_int_de_char_error t h
    rw [he]
    exact ⟨e, rfl⟩

theorem processar_palavra_error_len {t : List Char} (h : t.length ≠ 31) :
    ∃ e, processar_palavra t = .error e := by
  unfold processar_palavra
  rw [if_pos (show t.length ≠ TAMANHO_PALAVRA from h)]
  exact ⟨_, rfl⟩

theorem decodificar_palavras_error {palavras : List (List Char)} {t : List Char}
    (ht : t ∈ palavras) (he : ∃ e, processar_palavra t = .error e) :
    ∃ e, decodificar_palavras palavras = .error e := by
  obtain ⟨e, hme⟩ := mapM_error_of_mem processar_palavra palavras t ht he
  unfold decodificar_palavras
  rw [hme]
  exact ⟨e, rfl⟩

/-! ### Syndrome range, token shape, and the header-capacity limit -/

theorem descobrir_pos_erro_le (palavra_bits : List Nat) :
    descobrir_pos_erro palavra_bits ≤ 31 := by
  unfold descobrir_pos_erro POS_PARIDADE
  simp only [List.foldl_cons, List.foldl_nil]
  split_ifs <;> decide

theorem codificar_palavras_length (dados : List Nat) :
    (codificar_palavras dados).length = (32 + 8 * dados.length + 25) / 26 := by
  unfold codificar_palavras
  rw [List.length_map, dividir_blocos_length, montar_bitstream_length]
  congr 2
  omega

theorem digitChar_bit {b : Nat} (hb : b ≤ 1) :
    Nat.digitChar b = '0' ∨ Nat.digitChar b = '1' := by
  interval_cases b
  · left
    rfl
  · right
    rfl

theorem codificar_palavras_tokens (dados : List Nat) :
    ∀ t ∈ codificar_palavras dados, t.length = 31 ∧ ∀ c ∈ t, c = '0' ∨ c = '1' := by
  intro t ht
  unfold codificar_palavras at ht
  simp only [List.mem_map] at ht
  obtain ⟨blk, hblk, rfl⟩ := ht
  have hwle : ∀ x ∈ calcular_paridades (montar_palavra blk), x ≤ 1 :=
    calcular_paridades_le_one _ (montar_palavra_le_one _
      (dividir_blocos_mem_le_one _ (montar_bitstream_le_one dados) _ hblk))
  constructor
  · unfold palavra_para_token
    rw [List.length_map, List.length_drop, calcular_paridades_length,
      montar_palavra_length]
  · intro c hc
    unfold palavra_para_token at hc
    simp only [List.mem_map] at hc
    obtain ⟨b, hb, rfl⟩ := hc
    exact digitChar_bit (hwle b (List.mem_of_mem_drop hb))

theorem bits_para_inteiro_replicate_zero :
    ∀ n : Nat, bits_para_inteiro (List.replicate n 0) = 0 := by
  intro n
  induction n with
  | zero => rfl
  | succ n ih =>
    rw [List.replicate_succ]
    show List.foldl (fun resultado b => (resultado <<< 1) ||| b)
      ((0 <<< 1) ||| 0) (List.replicate n 0) = 0
    rw [show ((0 : Nat) <<< 1) ||| 0 = 0 from rfl]
    exact ih

theorem inteiro_para_bits_two_pow :
    inteiro_para_bits (2 ^ 32) 32 = List.replicate 32 0 := by
  refine List.eq_replicate_iff.mpr ⟨inteiro_para_bits_length _ _, ?_⟩
  intro b hb
  unfold inteiro_para_bits at hb
  simp only [List.mem_map] at hb
  obtain ⟨i, hi, rfl⟩ := hb
  rw [List.mem_reverse, List.mem_range] at hi
  rw [Nat.shiftRight_eq_div_pow, Nat.and_one_is_mod,
    Nat.pow_div (by omega) (by norm_num),
    show 32 - i = (32 - i - 1) + 1 from by omega, Nat.pow_succ]
  simp [Nat.mul_mod_left]

theorem montar_bitstream_big :
    montar_bitstream (List.replicate (2 ^ 32) 0)
      = List.replicate (32 + 2 ^ 32 * 8) 0 := by
  unfold montar_bitstream
  rw [List.length_replicate, int_from_bytes_replicate_zero, inteiro_para_bits_zero,
    inteiro_para_bits_two_pow, ← List.replicate_add]

theorem decodificar_codificar_big :
    decodificar_palavras (codificar_palavras (List.replicate (2 ^ 32) 0)) = .ok [] := by
  have hblk : ∀ blk ∈ dividir_blocos (montar_bitstream (List.replicate (2 ^ 32) 0)),
      blk.length = 26 ∧ ∀ x ∈ blk, x ≤ 1 := fun blk hb =>
    ⟨dividir_blocos_mem_length _ _ hb,
     dividir_blocos_mem_le_one _ (montar_bitstream_le_one _) _ hb⟩
  unfold codificar_palavras
  rw [decodificar_palavras_eq_ok (mapM_processar_enc _ hblk)]
  obtain ⟨k, hk⟩ := dividir_blocos_flatten (montar_bitstream (List.replicate (2 ^ 32) 0))
  rw [hk, montar_bitstream_big, ← List.replicate_add, List.take_replicate,
    Nat.min_eq_left (Nat.le_trans (Nat.le_add_right 32 (2 ^ 32 * 8))
      (Nat.le_add_right _ k)),
    bits_para_inteiro_replicate_zero, Nat.zero_mul, List.take_zero]
  rfl

/-! ### The specification claims -/

/-- C1 (amended): for every byte buffer of fewer than `2 ^ 32` bytes
(the capacity of the 32-bit length header), decoding the unmodified text
produced by encoding the buffer reproduces exactly the buffer: the
composition of `decodificar_arquivo` after `codificar_arquivo` is the
identity there.  The original claim, over every byte buffer, fails at
`List.replicate (2 ^ 32) 0` because the header wraps (see
`claim_C1_counterexample`). -/
theorem claim_C1 (dados : List Nat) (hbytes : ∀ x ∈ dados, x < 256)
    (hlen : dados.length < 2 ^ 32) :
    decodificar_palavras (codificar_palavras dados) = .ok dados :=
  decodificar_codificar dados hbytes hlen

/-- C1 witness: the round trip at the concrete buffer `[1, 2, 3]`. -/
theorem claim_C1_witness :
    (∀ x ∈ ([1, 2, 3] : List Nat), x < 256) ∧
      ([1, 2, 3] : List Nat).length < 2 ^ 32 ∧
      decodificar_palavras (codificar_palavras [1, 2, 3]) = .ok [1, 2, 3] :=
  ⟨by decide, by decide, claim_C1 [1, 2, 3] (by decide) (by decide)⟩

/-- C1 counterexample: at the `2 ^ 32`-byte all-zero buffer the 32-bit length
header wraps to 0, decoding yields the empty buffer, and the round trip is
not the identity. -/
theorem claim_C1_counterexample :
    decodificar_palavras (codificar_palavras (List.replicate (2 ^ 32) 0))
      ≠ .ok (List.replicate (2 ^ 32) 0) := by
  intro hcon
  rw [decodificar_codificar_big] at hcon
  simp only [Except.ok.injEq] at hcon
  have h2 := congrArg List.length hcon
  rw [List.length_replicate, List.length_nil] at h2
  norm_num at h2

/-- C2: for every 26-bit data block, flipping any single position
`i ∈ 1..31` of the freshly encoded codeword and decoding recovers the same
26 data bits: the syndrome computed by `descobrir_pos_erro` equals `i`, the
flip at position `i` restores the codeword, and the data bits extracted at
the non-parity positions are unchanged. -/
theorem claim_C2 (d : List Nat) (hd : d.length = 26) (hbits : ∀ x ∈ d, x ≤ 1)
    (i : Nat) (hi1 : 1 ≤ i) (hi31 : i ≤ 31) :
    descobrir_pos_erro ((calcular_paridades (montar_palavra d)).set i ((calcular_paridades (montar_palavra d)).getD i 0 ^^^ 1)) = i ∧
    ((calcular_paridades (montar_palavra d)).set i ((calcular_paridades (montar_palavra d)).getD i 0 ^^^ 1)).set i (((calcular_paridades (montar_palavra d)).set i ((calcular_paridades (montar_palavra d)).getD i 0 ^^^ 1)).getD i 0 ^^^ 1) = calcular_paridades (montar_palavra d) ∧
    decodificar_bloco ((calcular_paridades (montar_palavra d)).set i ((calcular_paridades (montar_palavra d)).getD i 0 ^^^ 1)) = d := by
  obtain ⟨d0, d1, d2, d3, d4, d5, d6, d7, d8, d9, d10, d11, d12, d13, d14, d15, d16, d17, d18, d19, d20, d21, d22, d23, d24, d25, rfl⟩ := exists_26 d hd
  refine ⟨descobrir_flip_enc d0 d1 d2 d3 d4 d5 d6 d7 d8 d9 d10 d11 d12 d13 d14 d15 d16 d17 d18 d19 d20 d21 d22 d23 d24 d25 i hi1 hi31, ?_,
    decodificar_bloco_flip d0 d1 d2 d3 d4 d5 d6 d7 d8 d9 d10 d11 d12 d13 d14 d15 d16 d17 d18 d19 d20 d21 d22 d23 d24 d25 i hi1 hi31⟩
  apply set_flip_flip
  rw [calc_montar_length]
  omega

/-- C2 witness: the flip at position 5 of the codeword of a concrete block. -/
theorem claim_C2_witness :
    ([1, 0, 1, 1, 0, 0, 1, 0, 1, 1, 1, 0, 0, 1, 0, 1, 1, 0, 1, 0, 0, 1, 1, 0, 1, 0] : List Nat).length = 26 ∧ (∀ x ∈ ([1, 0, 1, 1, 0, 0, 1, 0, 1, 1, 1, 0, 0, 1, 0, 1, 1, 0, 1, 0, 0, 1, 1, 0, 1, 0] : List Nat), x ≤ 1) ∧
      1 ≤ 5 ∧ 5 ≤ 31 ∧
      (descobrir_pos_erro ((calcular_paridades (montar_palavra [1, 0, 1, 1, 0, 0, 1, 0, 1, 1, 1, 0, 0, 1, 0, 1, 1, 0, 1, 0, 0, 1, 1, 0, 1, 0])).set 5
        ((calcular_paridades (montar_palavra [1, 0, 1, 1, 0, 0, 1, 0, 1, 1, 1, 0, 0, 1, 0, 1, 1, 0, 1, 0, 0, 1, 1, 0, 1, 0])).getD 5 0 ^^^ 1)) = 5 ∧
      ((calcular_paridades (montar_palavra [1, 0, 1, 1, 0, 0, 1, 0, 1, 1, 1, 0, 0, 1, 0, 1, 1, 0, 1, 0, 0, 1, 1, 0, 1, 0])).set 5
          ((calcular_paridades (montar_palavra [1, 0, 1, 1, 0, 0, 1, 0, 1, 1, 1, 0, 0, 1, 0, 1, 1, 0, 1, 0, 0, 1, 1, 0, 1, 0])).getD 5 0 ^^^ 1)).set 5
        (((calcular_paridades (montar_palavra [1, 0, 1, 1, 0, 0, 1, 0, 1, 1, 1, 0, 0, 1, 0, 1, 1, 0, 1, 0, 0, 1, 1, 0, 1, 0])).set 5
          ((calcular_paridades (montar_palavra [1, 0, 1, 1, 0, 0, 1, 0, 1, 1, 1, 0, 0, 1, 0, 1, 1, 0, 1, 0, 0, 1, 1, 0, 1, 0])).getD 5 0 ^^^ 1)).getD 5 0 ^^^ 1)
        = calcular_paridades (montar_palavra [1, 0, 1, 1, 0, 0, 1, 0, 1, 1, 1, 0, 0, 1, 0, 1, 1, 0, 1, 0, 0, 1, 1, 0, 1, 0]) ∧
      decodificar_bloco ((calcular_paridades (montar_palavra [1, 0, 1, 1, 0, 0, 1, 0, 1, 1, 1, 0, 0, 1, 0, 1, 1, 0, 1, 0, 0, 1, 1, 0, 1, 0])).set 5
        ((calcular_paridades (montar_palavra [1, 0, 1, 1, 0, 0, 1, 0, 1, 1, 1, 0, 0, 1, 0, 1, 1, 0, 1, 0, 0, 1, 1, 0, 1, 0])).getD 5 0 ^^^ 1)) = [1, 0, 1, 1, 0, 0, 1, 0, 1, 1, 1, 0, 0, 1, 0, 1, 1, 0, 1, 0, 0, 1, 1, 0, 1, 0]) :=
  ⟨by decide, by decide, by decide, by decide,
    claim_C2 [1, 0, 1, 1, 0, 0, 1, 0, 1, 1, 1, 0, 0, 1, 0, 1, 1, 0, 1, 0, 0, 1, 1, 0, 1, 0] (by decide) (by decide) 5 (by decide) (by decide)⟩

/-- C3: for every 26-bit data block, the codeword built by placing the data
bits at the ascending non-parity positions and running `calcular_paridades`
satisfies, at each parity position `p ∈ {1, 2, 4, 8, 16}`, the invariant
that `word[p]` is the xor of `word[i]` over all `i ∈ 1..31` with `i ≠ p` and
`i &&& p ≠ 0`. -/
theorem claim_C3 (d : List Nat) (hd : d.length = 26) (hbits : ∀ x ∈ d, x ≤ 1) :
    ∀ p ∈ POS_PARIDADE, paridade_invariante (calcular_paridades (montar_palavra d)) p := by
  obtain ⟨d0, d1, d2, d3, d4, d5, d6, d7, d8, d9, d10, d11, d12, d13, d14, d15, d16, d17, d18, d19, d20, d21, d22, d23, d24, d25, rfl⟩ := exists_26 d hd
  intro p hp
  simp only [POS_PARIDADE, List.mem_cons, List.not_mem_nil, or_false] at hp
  rcases hp with rfl | rfl | rfl | rfl | rfl
  all_goals (unfold paridade_invariante; rw [calc_montar_eval]; rfl)

/-- C3 witness: the invariant at parity position 1 of a concrete block. -/
theorem claim_C3_witness :
    ([1, 0, 1, 1, 0, 0, 1, 0, 1, 1, 1, 0, 0, 1, 0, 1, 1, 0, 1, 0, 0, 1, 1, 0, 1, 0] : List Nat).length = 26 ∧ (∀ x ∈ ([1, 0, 1, 1, 0, 0, 1, 0, 1, 1, 1, 0, 0, 1, 0, 1, 1, 0, 1, 0, 0, 1, 1, 0, 1, 0] : List Nat), x ≤ 1) ∧
      1 ∈ POS_PARIDADE ∧
      paridade_invariante (calcular_paridades (montar_palavra [1, 0, 1, 1, 0, 0, 1, 0, 1, 1, 1, 0, 0, 1, 0, 1, 1, 0, 1, 0, 0, 1, 1, 0, 1, 0])) 1 :=
  ⟨by decide, by decide, by decide,
    claim_C3 [1, 0, 1, 1, 0, 0, 1, 0, 1, 1, 1, 0, 0, 1, 0, 1, 1, 0, 1, 0, 0, 1, 1, 0, 1, 0] (by decide) (by decide) 1 (by decide)⟩

/-- C4: for every 26-bit data block, decoding the untouched codeword
produced by encoding it yields a zero syndrome, flips nothing, and returns
exactly the block: block decode after block encode is the identity. -/
theorem claim_C4 (d : List Nat) (hd : d.length = 26) (hbits : ∀ x ∈ d, x ≤ 1) :
    descobrir_pos_erro (calcular_paridades (montar_palavra d)) = 0 ∧
    decodificar_bloco (calcular_paridades (montar_palavra d)) = d := by
  obtain ⟨d0, d1, d2, d3, d4, d5, d6, d7, d8, d9, d10, d11, d12, d13, d14, d15, d16, d17, d18, d19, d20, d21, d22, d23, d24, d25, rfl⟩ := exists_26 d hd
  exact ⟨descobrir_enc d0 d1 d2 d3 d4 d5 d6 d7 d8 d9 d10 d11 d12 d13 d14 d15 d16 d17 d18 d19 d20 d21 d22 d23 d24 d25, decodificar_bloco_enc d0 d1 d2 d3 d4 d5 d6 d7 d8 d9 d10 d11 d12 d13 d14 d15 d16 d17 d18 d19 d20 d21 d22 d23 d24 d25⟩

/-- C4 witness: no-error decoding of the codeword of a concrete block. -/
theorem claim_C4_witness :
    ([1, 0, 1, 1, 0, 0, 1, 0, 1, 1, 1, 0, 0, 1, 0, 1, 1, 0, 1, 0, 0, 1, 1, 0, 1, 0] : List Nat).length = 26 ∧ (∀ x ∈ ([1, 0, 1, 1, 0, 0, 1, 0, 1, 1, 1, 0, 0, 1, 0, 1, 1, 0, 1, 0, 0, 1, 1, 0, 1, 0] : List Nat), x ≤ 1) ∧
      (descobrir_pos_erro (calcular_paridades (montar_palavra [1, 0, 1, 1, 0, 0, 1, 0, 1, 1, 1, 0, 0, 1, 0, 1, 1, 0, 1, 0, 0, 1, 1, 0, 1, 0])) = 0 ∧
       decodificar_bloco (calcular_paridades (montar_palavra [1, 0, 1, 1, 0, 0, 1, 0, 1, 1, 1, 0, 0, 1, 0, 1, 1, 0, 1, 0, 0, 1, 1, 0, 1, 0])) = [1, 0, 1, 1, 0, 0, 1, 0, 1, 1, 1, 0, 0, 1, 0, 1, 1, 0, 1, 0, 0, 1, 1, 0, 1, 0]) :=
  ⟨by decide, by decide, claim_C4 [1, 0, 1, 1, 0, 0, 1, 0, 1, 1, 1, 0, 0, 1, 0, 1, 1, 0, 1, 0, 0, 1, 1, 0, 1, 0] (by decide) (by decide)⟩

/-- C5 (amended): `decodificar_arquivo` never raises a framing error: for
every input of well-formed 31-character binary tokens it produces output
bytes, even when fewer than `32 + n * 8` bits are available for the header
value `n` — the missing bits are silently treated as absent and the
declared byte count is rebuilt from the truncated slice.  The original
claim, that decoding fails in that case, is refuted by
`claim_C5_counterexample`. -/
theorem claim_C5 (palavras : List (List Char))
    (h : ∀ t ∈ palavras, t.length = 31 ∧ ∀ c ∈ t, c = '0' ∨ c = '1') :
    ∃ dados, decodificar_palavras palavras = .ok dados :=
  decodificar_palavras_wf palavras h

/-- C5 witness: a decode input with a single all-zero token. -/
theorem claim_C5_witness :
    (∀ t ∈ [List.replicate 31 '0'], t.length = 31 ∧ ∀ c ∈ t, c = '0' ∨ c = '1') ∧
    ∃ dados, decodificar_palavras [List.replicate 31 '0'] = .ok dados :=
  ⟨by decide, claim_C5 [List.replicate 31 '0'] (by decide)⟩

/-- C5 counterexample: a single all-zero token supplies only 26 bits, fewer
than the `32 + 0 * 8` bits the claim demands for the header value 0, yet
decoding succeeds with the empty output instead of raising an error. -/
theorem claim_C5_counterexample :
    decodificar_palavras [List.replicate 31 '0'] = .ok [] ∧ (26 : Nat) < 32 + 0 * 8 :=
  ⟨rfl, by decide⟩

/-- C6 (amended): decoding fails on a token only when some character is not
a Unicode decimal digit (category Nd) — for example a letter — because
`int(c)` accepts every decimal digit: for every decode input containing a
token with a non-digit character, `decodificar_arquivo` raises an error.
Decimal digits other than 0 and 1 — ASCII '2'..'9' as well as non-ASCII
digits such as the Arabic-Indic five — are accepted silently, so the
original claim is refuted by `claim_C6_counterexample`. -/
theorem claim_C6 (palavras : List (List Char)) (t : List Char)
    (ht : t ∈ palavras) (hc : ∃ c ∈ t, ¬ eh_digito_decimal c) :
    ∃ e, decodificar_palavras palavras = .error e :=
  decodificar_palavras_error ht (processar_palavra_error_char hc)

/-- C6 witness: a token starting with the letter a makes decoding fail. -/
theorem claim_C6_witness :
    ('a' :: List.replicate 30 '0') ∈ [('a' :: List.replicate 30 '0')] ∧
    (∃ c ∈ ('a' :: List.replicate 30 '0'), ¬ eh_digito_decimal c) ∧
    ∃ e, decodificar_palavras [('a' :: List.replicate 30 '0')] = .error e :=
  ⟨by decide, by decide,
    claim_C6 [('a' :: List.replicate 30 '0')] ('a' :: List.replicate 30 '0')
      (by decide) (by decide)⟩

/-- C6 counterexample: a 31-character token containing the digit '2' —
which is neither '0' nor '1' — decodes without any error, contradicting the
claim that such tokens raise `MalformedWordError`; the same happens for a
token containing the Arabic-Indic digit five, a non-ASCII character that
`int(c)` also accepts. -/
theorem claim_C6_counterexample :
    decodificar_palavras [('2' :: List.replicate 30 '0')] = .ok [] ∧
    ('2' :: List.replicate 30 '0').length = 31 ∧
    ¬('2' = '0' ∨ '2' = '1') ∧
    decodificar_palavras [('٥' :: List.replicate 30 '0')] = .ok [] ∧
    ¬('٥' = '0' ∨ '٥' = '1') :=
  ⟨rfl, by decide, by decide, rfl, by decide⟩

/-- C7: for every decode input containing a token whose length is not 31,
`decodificar_arquivo` raises an error; the length check runs before any
output is produced, so the destination file is never written (here: the
result is `.error`, and in `decodificar_arquivo` the write is the final
statement, after all tokens are processed). -/
theorem claim_C7 (palavras : List (List Char)) (t : List Char)
    (ht : t ∈ palavras) (hlen : t.length ≠ 31) :
    ∃ e, decodificar_palavras palavras = .error e :=
  decodificar_palavras_error ht (processar_palavra_error_len hlen)

/-- C7 witness: a 30-character token makes decoding fail. -/
theorem claim_C7_witness :
    (List.replicate 30 '0') ∈ [List.replicate 30 '0'] ∧
    (List.replicate 30 '0').length ≠ 31 ∧
    ∃ e, decodificar_palavras [List.replicate 30 '0'] = .error e :=
  ⟨by decide, by decide,
    claim_C7 [List.replicate 30 '0'] (List.replicate 30 '0') (by decide) (by decide)⟩

/-- C8 (amended): encoding a 0-byte input produces exactly two 31-bit
codewords (the 32 header bits split into two 26-bit blocks,
`ceil(32 / 26) = 2`), both all zero — so every data bit is zero and the
header encodes 0 — and decoding that output reproduces the 0-byte file.
The original claim of a single codeword is refuted by
`claim_C8_counterexample`. -/
theorem claim_C8 :
    codificar_palavras [] = [List.replicate 31 '0', List.replicate 31 '0'] ∧
    decodificar_palavras (codificar_palavras []) = .ok [] :=
  ⟨rfl, rfl⟩

/-- C8 counterexample: encoding the empty file yields two codewords, not
one. -/
theorem claim_C8_counterexample : (codificar_palavras []).length ≠ 1 := by
  decide

/-- C9: for every word, the value returned by `descobrir_pos_erro` is the
or of a subset of `{1, 2, 4, 8, 16}` and hence at most 31; consequently in
the guard `1 ≤ pos_erro ∧ pos_erro ≤ TAMANHO_PALAVRA` the upper bound never
decides, and a syndrome-above-31 branch would be unreachable. -/
theorem claim_C9 (palavra_bits : List Nat) :
    descobrir_pos_erro palavra_bits ≤ 31 ∧
    ((1 ≤ descobrir_pos_erro palavra_bits ∧
        descobrir_pos_erro palavra_bits ≤ TAMANHO_PALAVRA) ↔
      1 ≤ descobrir_pos_erro palavra_bits) := by
  have hle := descobrir_pos_erro_le palavra_bits
  exact ⟨hle, ⟨fun h => h.1, fun h => ⟨h, hle⟩⟩⟩

/-- C10: for every input of `n` bytes, `codificar_arquivo` writes exactly
`ceil((32 + 8 * n) / 26)` tokens, each consisting of exactly 31 characters,
every one of which is '0' or '1'. -/
theorem claim_C10 (dados : List Nat) :
    (codificar_palavras dados).length = (32 + 8 * dados.length + 25) / 26 ∧
    ∀ t ∈ codificar_palavras dados, t.length = 31 ∧ ∀ c ∈ t, c = '0' ∨ c = '1' :=
  ⟨codificar_palavras_length dados, codificar_palavras_tokens dados⟩


end Hamming3126
